import Mathlib

/-!
Verification development for the exif2timestream conversion pipeline
(`exif2timestream.py`): a shallow embedding of its configuration model,
capture-date resolution cascade, path/name templating and the per-image
processing state machine, together with theorems settling the frozen
claims about the program.

Modelling conventions:
* Machine integers are `Int`/`Nat`; Python floor division/modulo are
  `/` and `%` on `Int` (Euclidean, which agrees with floor for the positive divisors used) (divisors are positive throughout).
* `time.struct_time` is represented by its seconds-since-epoch value plus
  the two display fields the code manipulates independently (`tm_wday`,
  `tm_isdst`).  `time.mktime`/`time.localtime` are modelled as the inverse
  conversions of a DST-free local clock (the timezone database is outside
  the program).  Calendar decomposition uses the standard civil-calendar
  algorithms and is only needed for formatting/parsing.
* Fallible code returns `Except`; a raised Python exception that escapes a
  function is an `Except.error` carrying the exception kind and, for
  stateful code, the filesystem state at the raise point (Python
  exceptions do not roll back side effects).
* External collaborators (pexif, exifread, PIL) are modelled by the data
  they expose: a file carries its byte content (`Content`, an inductive
  that records which codec transforms produced it), its readable EXIF
  date fields and a writability flag; codec transforms are `Content`
  constructors, so byte identity is `Content` equality.
-/

/-! ## Python-style integer helpers -/

/-- Round-half-away-from-zero of `s / r` (Python 2 `round`), for `r > 0`. -/
def roundHalfAway (s r : Int) : Int :=
  if 0 ≤ s then (2 * s + r)/ (2 * r) else -((2 * (-s) + r)/ (2 * r))

theorem roundHalfAway_mul (k r : Int) (hr : 0 < r) : roundHalfAway (k * r) r = k := by
  unfold roundHalfAway
  rcases le_or_lt 0 k with hk | hk
  · rw [if_pos (by positivity)]
    have h2 : (2 : Int) * (k * r) + r = r + k * (2 * r) := by ring
    rw [h2, Int.add_mul_ediv_right _ _ (by omega : (2 : Int) * r ≠ 0),
      Int.ediv_eq_zero_of_lt (by omega) (by omega)]
    omega
  · have hs : k * r < 0 := mul_neg_of_neg_of_pos hk hr
    rw [if_neg (by omega)]
    have h2 : (2 : Int) * (-(k * r)) + r = r + (-k) * (2 * r) := by ring
    rw [h2, Int.add_mul_ediv_right _ _ (by omega : (2 : Int) * r ≠ 0),
      Int.ediv_eq_zero_of_lt (by omega) (by omega)]
    omega

/-! ## struct_time model -/

/-- Model of `time.struct_time`: the epoch value it denotes, plus the two
display fields (`tm_wday`, `tm_isdst`) that `round_struct_time` overwrites
independently of the calendar fields. -/
structure StructTime where
  epoch : Int
  wday : Int
  isdst : Int
deriving DecidableEq, Repr

/-- Weekday of an epoch value (1970-01-01 was a Thursday, `tm_wday = 4`). -/
def wdayOfEpoch (n : Int) : Int :=
  ((n / 86400) + 4) % 7

/-- Model of `time.mktime` (DST-free local clock). -/
def mktime (t : StructTime) : Int := t.epoch

/-- Model of `time.localtime` (DST-free local clock). -/
def localtime (n : Int) : StructTime :=
  { epoch := n, wday := wdayOfEpoch n, isdst := 0 }

/-- Python tuple comparison on `struct_time`: the calendar prefix orders
exactly as the epoch; on equal epochs the remaining fields we track are
`tm_wday` then `tm_isdst`. -/
def stLt (a b : StructTime) : Bool :=
  a.epoch < b.epoch ∨
    (a.epoch = b.epoch ∧ (a.wday < b.wday ∨ (a.wday = b.wday ∧ a.isdst < b.isdst)))

/-! ## Civil calendar (for strftime / strptime) -/

/-- Calendar date triple. -/
structure Civil where
  year : Int
  month : Int
  day : Int
deriving DecidableEq, Repr

/-- Days since 1970-01-01 of a civil date (floor-division form of the
standard civil-calendar algorithm). -/
def daysFromCivil (c : Civil) : Int :=
  let y := if c.month ≤ 2 then c.year - 1 else c.year
  let era := y / 400
  let yoe := y - era * 400
  let mp := (c.month + 9) % 12
  let doy := (153 * mp + 2) / 5 + c.day - 1
  let doe := yoe * 365 + yoe / 4 - yoe / 100 + doy
  era * 146097 + doe - 719468

/-- Civil date of a days-since-1970 value. -/
def civilFromDays (z : Int) : Civil :=
  let z' := z + 719468
  let era := z' / 146097
  let doe := z' - era * 146097
  let yoe := (doe - doe / 1460 + doe / 36524 - doe / 146096) / 365
  let y := yoe + era * 400
  let doy := doe - (365 * yoe + yoe / 4 - yoe / 100)
  let mp := (5 * doy + 2) / 153
  let d := doy - (153 * mp + 2) / 5 + 1
  let m := if mp < 10 then mp + 3 else mp - 9
  { year := if m ≤ 2 then y + 1 else y, month := m, day := d }

/-- Civil date of a struct_time value. -/
def stCivil (t : StructTime) : Civil := civilFromDays (t.epoch / 86400)

def stHour (t : StructTime) : Int := (t.epoch % 86400) / 3600

def stMin (t : StructTime) : Int := ((t.epoch % 86400) % 3600) / 60

def stSec (t : StructTime) : Int := t.epoch % 60

/-- Build a struct_time from calendar fields (as `time.strptime` does). -/
def stOfCalendar (y mo d h mi s : Int) : StructTime :=
  let e := daysFromCivil { year := y, month := mo, day := d } * 86400 +
    h * 3600 + mi * 60 + s
  { epoch := e, wday := wdayOfEpoch e, isdst := -1 }

/-! ## round_struct_time -/

/-- Model of `round_struct_time(in_time, round_secs, tz_hrs=0, uselocal=True)`:
round the epoch value to the nearest multiple of `round_secs`, rebuild the
struct from the rounded epoch, then overwrite `tm_isdst` and `tm_wday`
with the input's values (source lines 538-551). -/
def round_struct_time (in_time : StructTime) (round_secs : Int)
    (tz_hrs : Int := 0) (uselocal : Bool := true) : StructTime :=
  let seconds := mktime in_time
  let rounded := roundHalfAway seconds round_secs * round_secs
  let rounded := if uselocal then rounded else rounded - tz_hrs * 60 * 60
  let rv := localtime rounded
  { rv with isdst := in_time.isdst, wday := in_time.wday }

/-- C5: For every timestamp `t` and rounding interval `round_secs > 1`,
`round_struct_time` is idempotent (rounding an already-rounded value again
yields the same value) and preserves the input's `tm_wday` and `tm_isdst`
fields, changing only the seconds-since-epoch magnitude. -/
theorem C5_round_struct_time_idempotent (t : StructTime) (r : Int) (hr : 1 < r) :
    round_struct_time (round_struct_time t r) r = round_struct_time t r ∧
    (round_struct_time t r).wday = t.wday ∧
    (round_struct_time t r).isdst = t.isdst := by
  have hr0 : 0 < r := by omega
  refine ⟨?_, rfl, rfl⟩
  show round_struct_time
      { localtime (roundHalfAway (mktime t) r * r) with isdst := t.isdst, wday := t.wday } r = _
  unfold round_struct_time
  simp only [if_pos, mktime, localtime]
  rw [roundHalfAway_mul _ _ hr0]

/-- Witness for C5 at a concrete timestamp and interval. -/
theorem C5_round_struct_time_idempotent_witness :
    (1 : Int) < 300 ∧
      (round_struct_time (round_struct_time ⟨1384326789, 2, 0⟩ 300) 300 =
          round_struct_time ⟨1384326789, 2, 0⟩ 300 ∧
        (round_struct_time ⟨1384326789, 2, 0⟩ 300).wday = 2 ∧
        (round_struct_time ⟨1384326789, 2, 0⟩ 300).isdst = 0) :=
  ⟨by norm_num, C5_round_struct_time_idempotent ⟨1384326789, 2, 0⟩ 300 (by norm_num)⟩

/-! ## Characters and strings (ASCII, as used by the program) -/

def toLowerChar (c : Char) : Char :=
  if 'A' ≤ c ∧ c ≤ 'Z' then Char.ofNat (c.toNat + 32) else c

def toUpperChar (c : Char) : Char :=
  if 'a' ≤ c ∧ c ≤ 'z' then Char.ofNat (c.toNat - 32) else c

def strLower (s : String) : String := String.mk (s.data.map toLowerChar)

def strUpper (s : String) : String := String.mk (s.data.map toUpperChar)

def isDigitChar (c : Char) : Bool := '0' ≤ c ∧ c ≤ '9'

def listStartsWith : List Char → List Char → Bool
  | [], _ => true
  | _ :: _, [] => false
  | p :: ps, c :: cs => p = c ∧ listStartsWith ps cs

/-- Kernel-reducible `startsWith`. -/
def strStartsWith (s pre : String) : Bool := listStartsWith pre.data s.data

/-- Kernel-reducible `endsWith`. -/
def strEndsWith (s suf : String) : Bool :=
  listStartsWith suf.data.reverse s.data.reverse

/-- One step list of non-overlapping replacements, fuel-bounded (Python
`str.replace`; the pipeline never calls it with an empty pattern). -/
def listReplaceAux (pat rep : List Char) : Nat → List Char → List Char
  | 0, l => l
  | _ + 1, [] => []
  | fuel + 1, c :: cs =>
    if pat ≠ [] ∧ listStartsWith pat (c :: cs) then
      rep ++ listReplaceAux pat rep fuel ((c :: cs).drop pat.length)
    else
      c :: listReplaceAux pat rep fuel cs

def strReplace (s pat rep : String) : String :=
  String.mk (listReplaceAux pat.data rep.data (s.data.length + 1) s.data)

def listContainsSub : List Char → List Char → Bool
  | _, [] => true
  | [], _ :: _ => false
  | c :: cs, sub => listStartsWith sub (c :: cs) ∨ listContainsSub cs sub

/-- Python `sub in s`. -/
def containsSubstr (s sub : String) : Bool := listContainsSub s.data sub.data

def lastIndexOfAux (c : Char) : List Char → Nat → Option Nat
  | [], _ => none
  | x :: xs, i =>
    match lastIndexOfAux c xs (i + 1) with
    | some j => some j
    | none => if x = c then some i else none

def lastIndexOf (c : Char) (l : List Char) : Option Nat := lastIndexOfAux c l 0

/-- Model of `os.path.splitext` (posix): split the extension at the last dot of the
basename, ignoring leading dots of the basename; the extension keeps its
dot. -/
def splitext (p : String) : String × String :=
  let l := p.data
  let dlen := match lastIndexOf '/' l with
    | some i => i + 1
    | none => 0
  let b := l.drop dlen
  let lead := (b.takeWhile (fun c => c = '.')).length
  match lastIndexOf '.' b with
  | some j =>
    if lead ≤ j then (String.mk (l.take (dlen + j)), String.mk (l.drop (dlen + j)))
    else (p, "")
  | none => (p, "")

/-- Model of `os.path.dirname` (posix). -/
def dirname (p : String) : String :=
  let l := p.data
  match lastIndexOf '/' l with
  | none => ""
  | some i =>
    let head := l.take (i + 1)
    if head.all (fun c => c = '/') then String.mk head
    else String.mk (head.reverse.dropWhile (fun c => c = '/')).reverse

/-- Model of `os.path.basename` (posix). -/
def basename (p : String) : String :=
  let l := p.data
  match lastIndexOf '/' l with
  | none => p
  | some i => String.mk (l.drop (i + 1))

/-- Model of `os.path.split` (posix): `(dirname, basename)`. -/
def splitPath (p : String) : String × String := (dirname p, basename p)

/-- Model of `os.path.join` for two components (posix; `os.path.sep` is `/`). -/
def joinPath (a b : String) : String :=
  if strStartsWith b "/" then b
  else if a = "" then b
  else if strEndsWith a "/" then a ++ b
  else a ++ "/" ++ b

/-- Python `str.lstrip(".")`. -/
def lstripDot (s : String) : String := String.mk (s.data.dropWhile (fun c => c = '.'))

/-- Python `str.strip(".")`. -/
def stripDot (s : String) : String :=
  String.mk (((s.data.dropWhile (fun c => c = '.')).reverse.dropWhile (fun c => c = '.')).reverse)

/-- Python `str.strip()`. -/
def strTrim (s : String) : String :=
  String.mk (((s.data.dropWhile Char.isWhitespace).reverse.dropWhile Char.isWhitespace).reverse)

def digitsToNat (l : List Char) : Nat :=
  l.foldl (fun a c => a * 10 + (c.toNat - 48)) 0

/-- Python `int(str)`: optional surrounding whitespace, optional sign,
one or more digits. -/
def parseIntStr (s : String) : Option Int :=
  let l := (strTrim s).data
  let (sgn, ds) : Int × List Char :=
    match l with
    | '-' :: rest => (-1, rest)
    | '+' :: rest => (1, rest)
    | rest => (1, rest)
  if ds ≠ [] ∧ ds.all (fun c => isDigitChar c) then some (sgn * (digitsToNat ds : Int))
  else none

def digitChar (n : Nat) : Char := Char.ofNat (48 + n)

def natStrAux : Nat → Nat → List Char
  | 0, _ => []
  | fuel + 1, n => if n < 10 then [digitChar n] else natStrAux fuel (n / 10) ++ [digitChar (n % 10)]

def natStr (n : Nat) : String := String.mk (natStrAux (n + 1) n)

/-- Python `str(int)`. -/
def intStr (n : Int) : String := if n < 0 then "-" ++ natStr n.natAbs else natStr n.natAbs

/-- Zero-padded decimal rendering of a nonnegative value (strftime-style). -/
def padInt (w : Nat) (n : Int) : String :=
  let s := natStr n.natAbs
  let pad := w - s.data.length
  String.mk (List.replicate pad '0') ++ s

/-! ## Date-mask machinery (`get_time_from_filename`, source lines 450-465)

`get_time_from_filename` turns each strftime token of the mask into a
fixed-width digit class (`%Y` into four digits, `%m %d %H %M %S` into two),
wraps the pattern in runs of literal dots, scans the filename for all
non-overlapping matches and returns the first match that parses under the
mask with `time.strptime`. -/

inductive MTok where
  | fY | fm | fd | fH | fM | fS
  | lit (c : Char)
deriving DecidableEq, Repr

def maskToksAux : Nat → List Char → List MTok
  | 0, _ => []
  | _ + 1, [] => []
  | fuel + 1, c :: rest =>
    if c = '%' then
      match rest with
      | [] => [.lit '%']
      | d :: rest' =>
        if d = 'Y' then .fY :: maskToksAux fuel rest'
        else if d = 'm' then .fm :: maskToksAux fuel rest'
        else if d = 'd' then .fd :: maskToksAux fuel rest'
        else if d = 'H' then .fH :: maskToksAux fuel rest'
        else if d = 'M' then .fM :: maskToksAux fuel rest'
        else if d = 'S' then .fS :: maskToksAux fuel rest'
        else .lit '%' :: .lit d :: maskToksAux fuel rest'
    else .lit c :: maskToksAux fuel rest

def maskToks (mask : String) : List MTok := maskToksAux (mask.data.length + 1) mask.data

def tokDigits : MTok → Nat
  | .fY => 4
  | _ => 2

/-- Take exactly `n` digit characters. -/
def takeDigits (n : Nat) (s : List Char) : Option (List Char × List Char) :=
  let pre := s.take n
  if pre.length = n ∧ pre.all (fun c => isDigitChar c) then some (pre, s.drop n) else none

/-- Match the digit-class pattern of the token list at the head of `s`. -/
def matchToks : List MTok → List Char → Option (List Char × List Char)
  | [], s => some ([], s)
  | .lit c :: ts, s =>
    match s with
    | [] => none
    | x :: xs =>
      if x = c then
        match matchToks ts xs with
        | some (m, r) => some (c :: m, r)
        | none => none
      else none
  | t :: ts, s =>
    match takeDigits (tokDigits t) s with
    | none => none
    | some (d, r) =>
      match matchToks ts r with
      | some (m, r') => some (d ++ m, r')
      | none => none

/-- Match `\.*  pattern  \.*` at the head of `s` (the greedy dot runs the
source wraps around the digit pattern). -/
def matchWhole (toks : List MTok) (s : List Char) : Option (List Char × List Char) :=
  let d1 := s.takeWhile (fun c => c = '.')
  let r1 := s.dropWhile (fun c => c = '.')
  match matchToks toks r1 with
  | none => none
  | some (mid, r2) =>
    let d2 := r2.takeWhile (fun c => c = '.')
    let r3 := r2.dropWhile (fun c => c = '.')
    some (d1 ++ mid ++ d2, r3)

/-- All non-overlapping matches, left to right (`re.findall`). -/
def findallAux (toks : List MTok) : Nat → List Char → List (List Char)
  | 0, _ => []
  | _ + 1, [] => []
  | fuel + 1, c :: cs =>
    match matchWhole toks (c :: cs) with
    | some (m, rest) =>
      if m.isEmpty then findallAux toks fuel cs
      else m :: findallAux toks fuel rest
    | none => findallAux toks fuel cs

def findallMask (toks : List MTok) (s : List Char) : List (List Char) :=
  findallAux toks (s.length + 1) s

def daysInMonth (y m : Int) : Int :=
  if m = 2 then
    if y % 4 = 0 ∧ (y % 100 ≠ 0 ∨ y % 400 = 0) then 29 else 28
  else if m = 4 ∨ m = 6 ∨ m = 9 ∨ m = 11 then 30
  else 31

/-- Parsed strftime fields with Python strptime defaults (1900-01-01). -/
structure PF where
  y : Int := 1900
  mo : Int := 1
  d : Int := 1
  h : Int := 0
  mi : Int := 0
  s : Int := 0
deriving DecidableEq, Repr

def setTok (f : PF) (t : MTok) (v : Int) : PF :=
  match t with
  | .fY => { f with y := v }
  | .fm => { f with mo := v }
  | .fd => { f with d := v }
  | .fH => { f with h := v }
  | .fM => { f with mi := v }
  | .fS => { f with s := v }
  | .lit _ => f

/-- Per-directive value constraints of Python `_strptime`'s regexes. -/
def tokOk (t : MTok) (v : Int) : Bool :=
  match t with
  | .fY => true
  | .fm => 1 ≤ v ∧ v ≤ 12
  | .fd => 1 ≤ v ∧ v ≤ 31
  | .fH => v ≤ 23
  | .fM => v ≤ 59
  | .fS => v ≤ 61
  | .lit _ => true

def strptimeAux : List MTok → List Char → PF → Option PF
  | [], [], f => some f
  | [], _ :: _, _ => none
  | .lit c :: ts, s, f =>
    match s with
    | [] => none
    | x :: xs => if x = c then strptimeAux ts xs f else none
  | t :: ts, s, f =>
    match takeDigits (tokDigits t) s with
    | none => none
    | some (d, r) =>
      let v : Int := (digitsToNat d : Int)
      if tokOk t v then strptimeAux ts r (setTok f t v) else none

/-- Model of `time.strptime(s, mask)` for digit masks: parse the whole string
against the mask, validate the calendar date (strptime derives weekday and
yearday through `datetime.date`, which rejects impossible dates). -/
def strptimeMask (toks : List MTok) (s : List Char) : Option StructTime :=
  match strptimeAux toks s {} with
  | none => none
  | some f =>
    if f.d ≤ daysInMonth f.y f.mo then
      some (stOfCalendar f.y f.mo f.d f.h f.mi f.s)
    else none

/-- Model of `time.strptime` for a mask given as a string. -/
def strptimeStr (mask s : String) : Option StructTime := strptimeMask (maskToks mask) s.data

/-- Module constant `DATE_MASK` (its definition-time value, which is what
`get_file_date`'s default argument captured). -/
def DATE_MASK : String := "%Y%m%d_%H%M%S"

def RAW_FORMATS : List String := ["cr2", "nef", "tif", "tiff", "raw"]

/-- Model of `get_time_from_filename(filename, mask)` (source lines 450-465): the
process-wide mutable `DATE_MASK` global is consulted only when the `mask`
argument is empty; the digit-pattern regex is scanned over the filename
and the first match that `strptime`-parses is returned. -/
def get_time_from_filename (globalMask : String) (filename mask : String) :
    Option StructTime :=
  let mask := if mask.data.length = 0 then globalMask else mask
  let toks := maskToks mask
  (findallMask toks filename.data).findSome? (fun m => strptimeMask toks m)

/-! ## PathTemplater -/

inductive Exc where
  | skip | ioerr | oserr | valueErr | attrErr | othererr
deriving DecidableEq, Repr

/-- strftime of `TS_FMT` with the name, subsecond count and extension
substituted (source lines 34-35 and 525-535). -/
def tsFileName (d : StructTime) (tsname : String) (n : Nat) (ext : String) : String :=
  let c := stCivil d
  let y := padInt 4 c.year
  let mo := padInt 2 c.month
  let dd := padInt 2 c.day
  let h := padInt 2 (stHour d)
  let mi := padInt 2 (stMin d)
  let s := padInt 2 (stSec d)
  y ++ "/" ++ y ++ "_" ++ mo ++ "/" ++ y ++ "_" ++ mo ++ "_" ++ dd ++ "/" ++
    y ++ "_" ++ mo ++ "_" ++ dd ++ "_" ++ h ++ "/" ++
    tsname ++ "_" ++ y ++ "_" ++ mo ++ "_" ++ dd ++ "_" ++ h ++ "_" ++ mi ++ "_" ++ s ++
    "_" ++ padInt 2 n ++ "." ++ ext

/-- Model of `get_new_file_name(date_tuple, ts_name, n=0, fmt=TS_FMT, ext="jpg")`
(source lines 525-535): raises `SkipImage` when the date or the name is
missing (`None` or empty), otherwise formats the timestream file name. -/
def get_new_file_name (date_tuple : Option StructTime) (ts_name : Option String)
    (n : Nat := 0) (ext : String := "jpg") : Except Exc String :=
  match date_tuple, ts_name with
  | some d, some nm => if nm = "" then .error .skip else .ok (tsFileName d nm n ext)
  | some _, none => .error .skip
  | none, _ => .error .skip

/-- C6: `get_new_file_name` fails — raising the Skip signal — if and only
if its timestamp argument is null or its name argument is empty or null;
for every non-null timestamp and non-empty name it returns a formatted
name without failing (exhaustive over both nullable inputs). -/
theorem C6_new_file_name_boundary (d : Option StructTime) (nm : Option String)
    (k : Nat) (ext : String) :
    (get_new_file_name d nm k ext = .error .skip ↔
      (d = none ∨ nm = none ∨ nm = some "")) ∧
    ((d ≠ none ∧ nm ≠ none ∧ nm ≠ some "") →
      ∃ s, get_new_file_name d nm k ext = .ok s) := by
  constructor
  · cases d with
    | none => simp [get_new_file_name]
    | some d =>
      cases nm with
      | none => simp [get_new_file_name]
      | some nm =>
        by_cases h : nm = "" <;> simp [get_new_file_name, h]
  · rintro ⟨hd, hn, he⟩
    cases d with
    | none => exact absurd rfl hd
    | some d =>
      cases nm with
      | none => exact absurd rfl hn
      | some nm =>
        refine ⟨tsFileName d nm k ext, ?_⟩
        have hne : ¬ nm = "" := fun h => he (congrArg some h)
        simp only [get_new_file_name, if_neg hne]

/-- Witness for C6: the non-failing side at a concrete date and name. -/
theorem C6_new_file_name_boundary_witness :
    (get_new_file_name (some (stOfCalendar 2013 11 12 20 53 9)) (some "test") 0 "jpg" =
        .error .skip ↔
      ((some (stOfCalendar 2013 11 12 20 53 9) : Option StructTime) = none ∨
        (some "test" : Option String) = none ∨ (some "test" : Option String) = some "")) ∧
    ((some (stOfCalendar 2013 11 12 20 53 9) : Option StructTime) ≠ none ∧
        (some "test" : Option String) ≠ none ∧ (some "test" : Option String) ≠ some "" →
      ∃ s, get_new_file_name (some (stOfCalendar 2013 11 12 20 53 9)) (some "test") 0 "jpg" =
        .ok s) :=
  C6_new_file_name_boundary (some (stOfCalendar 2013 11 12 20 53 9)) (some "test") 0 "jpg"

/-! ## Filesystem and collaborator model -/

/-- Byte content of a file.  Codec transforms (pexif date stamping, PIL
rotate/resize) are constructors, so two files are byte-identical exactly
when their `Content` values are equal, and a content with no transform
constructor on top is pristine. -/
inductive Content where
  | orig (id : Nat)
  | exifStamped (c : Content) (t : StructTime)
  | rotated (c : Content) (angle : String)
  | resized (c : Content) (w h : Int)
deriving DecidableEq, Repr

/-- A file as the collaborators expose it: its bytes, the capture date
readable through pexif (`DateTimeOriginal`) and through exifread
(`Image DateTime`), and whether pexif can write it back. -/
structure FileData where
  content : Content
  pexifDate : Option StructTime
  exifreadDate : Option StructTime
  writable : Bool
deriving DecidableEq, Repr

/-- Filesystem state plus the process-wide mutable `DATE_MASK` global and
the failure oracles for the external operations that can fail
(`os.makedirs`, `shutil.copyfile`, `Image.open`, `os.unlink`). -/
structure World where
  files : List (String × FileData)
  dirs : List String
  dateMaskGlobal : String
  mkdirFails : List String
  copyFails : List String
  openFails : List String
  unlinkFails : List String
deriving DecidableEq, Repr

def setAssoc : List (String × FileData) → String → FileData → List (String × FileData)
  | [], p, fd => [(p, fd)]
  | (q, g) :: rest, p, fd =>
    if q = p then (p, fd) :: rest else (q, g) :: setAssoc rest p fd

def remAssoc : List (String × FileData) → String → List (String × FileData)
  | [], _ => []
  | (q, g) :: rest, p => if q = p then rest else (q, g) :: remAssoc rest p

def lookupAssoc : List (String × FileData) → String → Option FileData
  | [], _ => none
  | (q, g) :: rest, p => if q = p then some g else lookupAssoc rest p

def World.getFile (w : World) (p : String) : Option FileData :=
  lookupAssoc w.files p

def World.setFile (w : World) (p : String) (fd : FileData) : World :=
  { w with files := setAssoc w.files p fd }

def World.remFile (w : World) (p : String) : World :=
  { w with files := remAssoc w.files p }

def World.fileExists (w : World) (p : String) : Bool := (w.getFile p).isSome

def World.dirExists (w : World) (p : String) : Bool := w.dirs.contains p

/-- Model of `pexif.JpegFile` write of `DateTimeOriginal` plus `writeFile`: the
bytes change and the pexif-readable date becomes the written one. -/
def write_exif_fd (fd : FileData) (dt : StructTime) : FileData :=
  { fd with pexifDate := some dt, content := .exifStamped fd.content dt }

/-- Model of `write_exif_date(filename, date_time)` (source lines 468-477): returns
whether the write succeeded; any failure is swallowed. -/
def write_exif_date (w : World) (filename : String) (dt : StructTime) : World × Bool :=
  match w.getFile filename with
  | none => (w, false)
  | some fd =>
    if fd.writable then (w.setFile filename (write_exif_fd fd dt), true) else (w, false)

/-- The `timeshift` handling of `get_file_date` (source lines 516-520):
`timeshift` is the raw config string; a truthy string is parsed with
`int()` (a parse failure raises), a nonzero value shifts the date by that
many hours through `datetime`, whose `timetuple` recomputes the weekday
and leaves `tm_isdst = -1`. -/
def applyTimeshift (d : StructTime) (timeshift : String) : Except Exc StructTime :=
  if timeshift = "" then .ok d
  else
    match parseIntStr timeshift with
    | none => .error .valueErr
    | some h =>
      if h = 0 then .ok d
      else
        let e := d.epoch + h * 3600
        .ok { epoch := e, wday := wdayOfEpoch e, isdst := -1 }

/-- The common post-processing tail of `get_file_date` (source lines
514-520): round when `round_secs > 1`, then apply the timeshift. -/
def finishDate (date : StructTime) (round_secs : Int) (timeshift : String) :
    Except Exc StructTime :=
  applyTimeshift (if 1 < round_secs then round_struct_time date round_secs else date)
    timeshift

/-- Model of `get_file_date(filename, timeshift, round_secs=1, date_mask=DATE_MASK)`
(source lines 480-522).  Cascade: pexif EXIF date, then exifread EXIF
date, then the filename scan under `date_mask`; a filename-derived date is
written back into the file best-effort (failure non-fatal); `None` when
every source fails.  The `date_mask` default is the module constant as
captured when the function was defined, not the mutated global.  A missing
file raises `IOError` (uncaught); a malformed nonempty `timeshift` raises
`ValueError` (uncaught). -/
def get_file_date (w : World) (filename : String) (timeshift : String)
    (round_secs : Int := 1) (date_mask : String := DATE_MASK) :
    Except (Exc × World) (Option StructTime × World) :=
  match w.getFile filename with
  | none => .error (.ioerr, w)
  | some fd =>
    let d1 : Option StructTime :=
      match fd.pexifDate with
      | some d => some d
      | none => fd.exifreadDate
    match d1 with
    | some date =>
      match finishDate date round_secs timeshift with
      | .error e => .error (e, w)
      | .ok d => .ok (some d, w)
    | none =>
      match get_time_from_filename w.dateMaskGlobal filename date_mask with
      | none => .ok (none, w)
      | some date =>
        let w' := if fd.writable then w.setFile filename (write_exif_fd fd date) else w
        match finishDate date round_secs timeshift with
        | .error e => .error (e, w')
        | .ok d => .ok (some d, w')

theorem finishDate_id (d : StructTime) : finishDate d 1 "" = .ok d := rfl

/-- C7: `get_file_date` follows the fallback cascade in order, first
success winning: it returns the embedded metadata capture time when
readable (pexif first, then exifread); otherwise it returns the first
filename match under the digit-pattern regex built from the mask that
parses successfully (`get_time_from_filename`), best-effort writing that
reconstructed time back into the file's metadata with write failure being
non-fatal (the returned date does not depend on writability); and it
returns null exactly when both sources fail.  Stated at the resolver's
default parameters (`round_secs = 1`, empty timeshift). -/
theorem C7_date_cascade (w : World) (fn : String) (fd : FileData)
    (h : w.getFile fn = some fd) :
    (∀ d, fd.pexifDate = some d →
      get_file_date w fn "" 1 DATE_MASK = .ok (some d, w)) ∧
    (fd.pexifDate = none → ∀ d, fd.exifreadDate = some d →
      get_file_date w fn "" 1 DATE_MASK = .ok (some d, w)) ∧
    (fd.pexifDate = none → fd.exifreadDate = none →
      get_file_date w fn "" 1 DATE_MASK =
        .ok (get_time_from_filename w.dateMaskGlobal fn DATE_MASK,
          match get_time_from_filename w.dateMaskGlobal fn DATE_MASK with
          | none => w
          | some date =>
            if fd.writable then w.setFile fn (write_exif_fd fd date) else w)) ∧
    (∀ res w', get_file_date w fn "" 1 DATE_MASK = .ok (res, w') →
      (res = none ↔ fd.pexifDate = none ∧ fd.exifreadDate = none ∧
        get_time_from_filename w.dateMaskGlobal fn DATE_MASK = none)) := by
  refine ⟨?_, ?_, ?_, ?_⟩
  · intro d hp
    simp [get_file_date, h, hp, finishDate_id]
  · intro hp d he
    simp [get_file_date, h, hp, he, finishDate_id]
  · intro hp he
    cases hm : get_time_from_filename w.dateMaskGlobal fn DATE_MASK with
    | none => simp [get_file_date, h, hp, he, hm]
    | some date => simp [get_file_date, h, hp, he, hm, finishDate_id]
  · intro res w' hres
    cases hp : fd.pexifDate with
    | some d =>
      simp [get_file_date, h, hp, finishDate_id] at hres
      simp [hres.1.symm, hp]
    | none =>
      cases he : fd.exifreadDate with
      | some d =>
        simp [get_file_date, h, hp, he, finishDate_id] at hres
        simp [hres.1.symm, hp, he]
      | none =>
        cases hm : get_time_from_filename w.dateMaskGlobal fn DATE_MASK with
        | none =>
          simp [get_file_date, h, hp, he, hm] at hres
          simp [hres.1.symm, hp, he, hm]
        | some date =>
          simp [get_file_date, h, hp, he, hm, finishDate_id] at hres
          simp [hres.1.symm, hp, he, hm]

/-- A concrete file whose EXIF date pexif can read. -/
def fdExif : FileData :=
  { content := .orig 1, pexifDate := some ⟨1384289589, 2, 0⟩, exifreadDate := none,
    writable := true }

/-- A concrete world holding one jpg with readable EXIF. -/
def wExif : World :=
  { files := [("img/a.jpg", fdExif)], dirs := [], dateMaskGlobal := DATE_MASK,
    mkdirFails := [], copyFails := [], openFails := [], unlinkFails := [] }

/-- Witness for C7: the first cascade stage at a concrete file. -/
theorem C7_date_cascade_witness :
    wExif.getFile "img/a.jpg" = some fdExif ∧
      get_file_date wExif "img/a.jpg" "" 1 DATE_MASK =
        .ok (some ⟨1384289589, 2, 0⟩, wExif) :=
  ⟨by decide, (C7_date_cascade wExif "img/a.jpg" fdExif (by decide)).1
    ⟨1384289589, 2, 0⟩ rfl⟩

/-! ## Camera configuration (pipeline view) -/

/-- One entry of the validated resolution list: a full-resolution keyword
or a `(width, optional height)` pair. -/
inductive Res where
  | full (s : String)
  | dims (w : Int) (h : Option Int)
deriving DecidableEq, Repr

/-- A validated camera configuration as the image pipeline consumes it
(the attributes `CameraFields.__init__` sets, after `parse_structures`). -/
structure Config where
  use : Bool
  location : String
  expt : String
  cam_num : String
  source : String
  destination : String
  archive_dest : String
  expt_end : StructTime
  expt_start : StructTime
  interval : Int
  image_types : List String
  method : String
  resolutions : List Res
  sunrise : Int × Int
  sunset : Int × Int
  timezone : Int × Int
  user : String
  mode : String
  project_owner : String
  ts_structure : String
  filename_date_mask : String
  orientation : String
  fn_parse : String
  fn_structure : String
  datasetID : String
  timeshift : String
  userfriendlyname : String
  large_json : Nat
  json_updates : String
deriving DecidableEq, Repr

def TOK_folder : String := "\x7bfolder\x7d"

def TOK_res : String := "\x7bres\x7d"

def TOK_cam : String := "\x7bcam\x7d"

def TOK_step : String := "\x7bstep\x7d"

def TOK_expt : String := "\x7bexpt\x7d"

def TOK_loc : String := "\x7bloc\x7d"

/-- Model of `ts_structure.format(folder=..., res=..., cam=..., step=...)`
(`str.format` with named placeholders; the values substituted never
contain placeholders themselves). -/
def formatStruct (s folder res cam step : String) : String :=
  strReplace (strReplace (strReplace (strReplace s TOK_folder folder) TOK_res res)
    TOK_cam cam) TOK_step step

/-- Model of `make_timestream_name(camera, res, step, folder)` (source lines
554-567): format `fn_structure` with the camera fields, resolution and
step. -/
def make_timestream_name (cam : Config) (res : String := "fullres")
    (step : String := "orig") (folder : String := "original") : String :=
  strReplace (strReplace (strReplace (strReplace (strReplace (strReplace
    cam.fn_structure TOK_expt cam.expt) TOK_loc cam.location) TOK_cam cam.cam_num)
    TOK_res res) TOK_step step) TOK_folder folder

/-- Model of `_dont_clobber(fn)` in its default `append` mode (source lines
649-653): when `fn` exists, append `_1` to the stem; note
`os.path.splitext` keeps the dot on the extension, so the code's
`'{}_1.{}'.format(base, ext)` yields a doubled dot (`a.jpg` becomes
`a_1..jpg`), exactly what its unit test expects. -/
def dont_clobber_append (w : World) (fn : String) : String :=
  if w.fileExists fn then
    let be := splitext fn
    if be.2 ≠ "" then be.1 ++ "_1." ++ be.2 else be.1 ++ "_1"
  else fn

/-- Model of `os.makedirs` under the failure oracle: returns the new world and
whether `OSError` was raised (an existing directory also raises, which the
callers tolerate by re-checking existence). -/
def makedirs (w : World) (p : String) : World × Bool :=
  if w.dirExists p then (w, true)
  else if w.mkdirFails.contains p then (w, true)
  else ({ w with dirs := p :: w.dirs }, false)

/-- Model of `shutil.copyfile`: raises `IOError` when the destination directory is
missing, the oracle says the copy fails, or the source is unreadable;
otherwise duplicates the file byte-for-byte. -/
def copyfile (w : World) (src dst : String) : Except (Exc × World) World :=
  if ¬ w.dirExists (dirname dst) then .error (.ioerr, w)
  else if w.copyFails.contains dst then .error (.ioerr, w)
  else
    match w.getFile src with
    | none => .error (.ioerr, w)
    | some fd => .ok (w.setFile dst fd)

/-- Model of `rotate_image(rotation, dest)` (source lines 629-636): open, rotate
and save in place; `IOError` is caught and yields `None`. -/
def rotate_image (w : World) (rotation dest : String) : Option Content × World :=
  if w.openFails.contains dest then (none, w)
  else
    match w.getFile dest with
    | none => (none, w)
    | some fd =>
      let c := Content.rotated fd.content rotation
      (some c, w.setFile dest { fd with content := c })

/-- Model of `resize_img(filename, destination, to_width, to_height, img_array)`
(source lines 428-447): resize the in-memory image and save it to
`destination`, then best-effort copy the source's EXIF date across.
`None` inputs raise (PIL), and saving into a missing directory raises
`IOError`. -/
def resize_img (w : World) (filename destination : String) (toW toH : Option Int)
    (img_array : Option Content) : Except (Exc × World) World :=
  match img_array with
  | none => .error (.othererr, w)
  | some c =>
    match toW, toH with
    | some wd, some ht =>
      if ¬ w.dirExists (dirname destination) then .error (.ioerr, w)
      else
        let pd := (w.getFile filename).bind (fun fd => fd.pexifDate)
        .ok (w.setFile destination
          { content := .resized c wd ht, pexifDate := pd, exifreadDate := none,
            writable := true })
    | _, _ => .error (.othererr, w)

def resDims : Res → Option Int × Option Int
  | .dims w h => (some w, h)
  | .full _ => (none, none)

/-- Python indexing `s[i]` for `i` in `{0, 1}`, as a string. -/
def sIndex (s : String) (i : Bool) : String :=
  match s.data, i with
  | c :: _, false => String.mk [c]
  | _ :: c :: _, true => String.mk [c]
  | _, _ => ""

/-- Model of `str(new_res[camera.orientation in ("90","270")])` — `str(None)` is
`"None"`. -/
def resName (r : Res) (i : Bool) : String :=
  match r with
  | .dims w h => if i then (match h with | some v => intStr v | none => "None") else intStr w
  | .full s => sIndex s i

def orient90 (cam : Config) : Bool := cam.orientation = "90" ∨ cam.orientation = "270"

/-- The loop body of `resize_function` (source lines 397-425) over
`camera.resolutions[1:]`: build the resized path, return early if it
already exists, create its directory with any `OSError` swallowed (the
re-raise is commented out in the source), then resize.  Errors escape to
the caller. -/
def resize_loop (cam : Config) (image_date : StructTime) (dest : String)
    (img_array : Option Content) : List Res → World → Except (Exc × World) World
  | [], w => .ok w
  | rr :: rest, w =>
    let rname := resName rr (orient90 cam)
    let ts_name := make_timestream_name cam rname "orig"
    match get_new_file_name (some image_date) (some ts_name) with
    | .error e => .error (e, w)
    | .ok outname =>
      let resized_img := joinPath (joinPath cam.destination
        (formatStruct cam.ts_structure "output" rname cam.cam_num "orig")) outname
      if w.fileExists resized_img then .ok w
      else
        let mk := makedirs w (dirname resized_img)
        match resize_img mk.1 dest resized_img (resDims rr).1 (resDims rr).2 img_array with
        | .error ew => .error ew
        | .ok w' => resize_loop cam image_date dest img_array rest w'

/-- Model of `resize_function(camera, image_date, dest, img_array)`. -/
def resize_function (w : World) (cam : Config) (image_date : StructTime)
    (dest : String) (img_array : Option Content) : Except (Exc × World) World :=
  resize_loop cam image_date dest img_array (cam.resolutions.drop 1) w

/-- The timestream output path of an image: destination joined with the
formatted `ts_structure` (folder `original`, res `fullres`) and the
formatted timestream file name. -/
def timestream_out_path (cam : Config) (image_date : StructTime) (image : String)
    (subsec : Nat) (step : String) : String :=
  joinPath (joinPath cam.destination
      (formatStruct cam.ts_structure "original" "fullres" cam.cam_num step))
    (tsFileName image_date (make_timestream_name cam "fullres" step) subsec
      (lstripDot (splitext image).2))

/-- The output path of one extra-resolution derivative written by the
`resize_function` loop (source lines 405-411): destination joined with the
`output`-folder formatting of `ts_structure` and the derivative's
timestream file name. -/
def resized_path (cam : Config) (image_date : StructTime) (rr : Res) : String :=
  joinPath (joinPath cam.destination
      (formatStruct cam.ts_structure "output" (resName rr (orient90 cam))
        cam.cam_num "orig"))
    (tsFileName image_date
      (make_timestream_name cam (resName rr (orient90 cam)) "orig") 0 "jpg")

/-- Model of `timestreamise_image(image, camera, subsec=0, step="orig")` (source
lines 570-627).  Sets the process-wide `DATE_MASK` global to the camera's
mask (`get_file_date` still receives its definition-time default mask),
resolves the date (unresolvable: `SkipImage`), builds the destination name
(`SkipImage` on missing name), creates the directory (`SkipImage` when it
cannot be created and does not exist), applies `_dont_clobber` in
`mode=SkipImage` — an existing destination raises `SkipImage`, it is never
`_1`-suffixed here — copies (any copy failure: `SkipImage`), then rotates
and re-stamps or opens the copy, and derives the extra resolutions with
every resize failure downgraded to `SkipImage`.  The bare `Image.open`
for the multi-resolution case is outside any handler, so its `IOError`
escapes. -/
def timestreamise_image (w : World) (cam : Config) (image : String)
    (subsec : Nat := 0) (step : String := "orig") : Except (Exc × World) World :=
  let w := { w with dateMaskGlobal := cam.filename_date_mask }
  match get_file_date w image cam.timeshift (cam.interval * 60) with
  | .error ew => .error ew
  | .ok (none, w) => .error (.skip, w)
  | .ok (some image_date, w) =>
    let in_ext := lstripDot (splitext image).2
    let ts_name := make_timestream_name cam "fullres" step
    match get_new_file_name (some image_date) (some ts_name) subsec in_ext with
    | .error e => .error (e, w)
    | .ok out_name =>
      let out_image := joinPath (joinPath cam.destination
        (formatStruct cam.ts_structure "original" "fullres" cam.cam_num step)) out_name
      let mk := makedirs w (dirname out_image)
      let w := mk.1
      if mk.2 ∧ ¬ w.dirExists (dirname out_image) then .error (.skip, w)
      else if w.fileExists out_image then .error (.skip, w)
      else
        match copyfile w image out_image with
        | .error ew => .error (.skip, ew.2)
        | .ok w =>
          let rotRes : Except (Exc × World) (Option Content × World) :=
            if cam.orientation ≠ "" ∧ step ≠ "raw" then
              let rw := rotate_image w cam.orientation out_image
              let wb := write_exif_date rw.2 out_image image_date
              .ok (rw.1, wb.1)
            else if cam.resolutions.length > 1 ∧ step ≠ "raw" then
              if w.openFails.contains out_image then .error (.ioerr, w)
              else .ok ((w.getFile out_image).map (fun fd => fd.content), w)
            else .ok (none, w)
          match rotRes with
          | .error ew => .error ew
          | .ok (img_array, w) =>
            if cam.resolutions.length > 1 ∧ step ≠ "raw" then
              match resize_function w cam image_date out_image img_array with
              | .error ew => .error (.skip, ew.2)
              | .ok w => .ok w
            else .ok w

/-- Model of `os.path.relpath(p, base)` for the case the program uses (an image
inside the source tree). -/
def relPath (p base : String) : String :=
  if strStartsWith p (base ++ "/") then String.mk (p.data.drop (base.data.length + 1))
  else p

/-- The archive destination of an image (source lines 685-692). -/
def archive_path (cam : Config) (image ext : String) : String :=
  joinPath (joinPath (joinPath cam.archive_dest cam.expt)
      (strReplace (cam.expt ++ "-" ++ cam.location ++ "-C" ++ cam.cam_num ++
        cam.datasetID ++ "~fullres-" ++ (if ext ∈ RAW_FORMATS then ext else "orig"))
        "_" "-"))
    (relPath image cam.source)

/-- The `camera.method == "archive"` branch of `process_image` (source
lines 681-702): build the archive path, create its directory re-raising a
fatal `OSError`, `_1`-disambiguate with `_dont_clobber`'s default append
mode, and copy.  Nothing here is wrapped in a handler: `SkipImage` from
`get_new_file_name`, the re-raised `OSError` and a copy `IOError` all
escape `process_image`. -/
def archive_branch (w : World) (cam : Config) (image ext : String)
    (image_date : StructTime) : Except (Exc × World) World :=
  let ts_name := make_timestream_name cam "fullres" "orig"
  match get_new_file_name (some image_date) (some ts_name) with
  | .error e => .error (e, w)
  | .ok _ =>
    let ap := archive_path cam image ext
    let mk := makedirs w (dirname ap)
    let w := mk.1
    if mk.2 ∧ ¬ w.dirExists (dirname ap) then .error (.oserr, w)
    else
      let ap := dont_clobber_append w ap
      copyfile w image ap

/-- Model of `os.unlink` with `OSError` caught and logged (source lines 713-718). -/
def unlinkOp (w : World) (p : String) : World :=
  if w.unlinkFails.contains p then w
  else
    match w.getFile p with
    | none => w
    | some _ => w.remFile p

/-- The cleanup step of `process_image`: for `move`/`archive`, delete the
original; deletion failure is non-fatal. -/
def cleanup_source (w : World) (cam : Config) (image : String) : World :=
  if cam.method = "move" ∨ cam.method = "archive" then unlinkOp w image else w

/-- Model of `process_image((image, camera, ext))` (source lines 659-718): resolve
the date (with the camera's rounding interval and timeshift), silently
return when it is out of the experiment window or the extension does not
match or the method is `json` or the file looks like a `last_image`; for
`resize`, derive resized copies (errors escape); for `archive`, run the
archive branch (errors escape); then timestream the image catching only
`SkipImage`; finally, for `move`/`archive`, delete the source. -/
def process_image (w : World) (cam : Config) (image ext : String) :
    Except (Exc × World) World :=
  match get_file_date w image cam.timeshift (cam.interval * 60) with
  | .error ew => .error ew
  | .ok (dOpt, w) =>
    match dOpt with
    | none => .ok w
    | some image_date =>
      if stLt image_date cam.expt_start ∨ stLt cam.expt_end image_date then .ok w
      else
        let my_ext := stripDot (strLower (splitext image).2)
        if ¬ (my_ext = ext ∨ (my_ext ∈ RAW_FORMATS ∧ ext = "raw")) then .ok w
        else if cam.method = "json" then .ok w
        else if containsSubstr (strLower image) "last_image" then .ok w
        else
          let rz : Except (Exc × World) World :=
            if cam.method = "resize" ∧ ¬ (ext ∈ RAW_FORMATS) then
              if w.openFails.contains image then .error (.ioerr, w)
              else
                match w.getFile image with
                | none => .error (.ioerr, w)
                | some fd => resize_function w cam image_date image (some fd.content)
            else .ok w
          match rz with
          | .error ew => .error ew
          | .ok w =>
            let ar : Except (Exc × World) World :=
              if cam.method = "archive" then archive_branch w cam image ext image_date
              else .ok w
            match ar with
            | .error ew => .error ew
            | .ok w =>
              let step := if strLower ext ∈ RAW_FORMATS then "raw" else "orig"
              match timestreamise_image w cam image 0 step with
              | .ok w => .ok (cleanup_source w cam image)
              | .error (.skip, w) => .ok (cleanup_source w cam image)
              | .error ew => .error ew

/-! ## Frame lemmas for the filesystem model -/

theorem lookup_setAssoc_self (l : List (String × FileData)) (p : String) (fd : FileData) :
    lookupAssoc (setAssoc l p fd) p = some fd := by
  induction l with
  | nil => simp [setAssoc, lookupAssoc]
  | cons e rest ih =>
    obtain ⟨a, b⟩ := e
    by_cases h : a = p
    · simp [setAssoc, h, lookupAssoc]
    · simp [setAssoc, h, lookupAssoc, ih]

theorem lookup_setAssoc_ne (l : List (String × FileData)) (p q : String) (fd : FileData)
    (h : q ≠ p) : lookupAssoc (setAssoc l p fd) q = lookupAssoc l q := by
  induction l with
  | nil => simp [setAssoc, lookupAssoc, Ne.symm h]
  | cons e rest ih =>
    obtain ⟨a, b⟩ := e
    by_cases he : a = p
    · have haq : ¬ a = q := by rw [he]; exact Ne.symm h
      simp [setAssoc, he, lookupAssoc, Ne.symm h, haq]
    · by_cases haq : a = q <;> simp [setAssoc, he, lookupAssoc, haq, ih, h]

theorem lookup_remAssoc_ne (l : List (String × FileData)) (p q : String)
    (h : q ≠ p) : lookupAssoc (remAssoc l p) q = lookupAssoc l q := by
  induction l with
  | nil => simp [remAssoc]
  | cons e rest ih =>
    obtain ⟨a, b⟩ := e
    by_cases he : a = p
    · have haq : ¬ a = q := by rw [he]; exact Ne.symm h
      simp [remAssoc, he, lookupAssoc, haq, Ne.symm h]
    · by_cases haq : a = q <;> simp [remAssoc, he, lookupAssoc, haq, ih, h]

theorem getFile_setFile_self (w : World) (p : String) (fd : FileData) :
    (w.setFile p fd).getFile p = some fd :=
  lookup_setAssoc_self w.files p fd

theorem getFile_setFile_ne (w : World) (p q : String) (fd : FileData) (h : q ≠ p) :
    (w.setFile p fd).getFile q = w.getFile q :=
  lookup_setAssoc_ne w.files p q fd h

theorem getFile_remFile_ne (w : World) (p q : String) (h : q ≠ p) :
    (w.remFile p).getFile q = w.getFile q :=
  lookup_remAssoc_ne w.files p q h

theorem getFile_makedirs (w : World) (p q : String) :
    ((makedirs w p).1).getFile q = w.getFile q := by
  unfold makedirs
  split_ifs <;> rfl

theorem fileExists_makedirs (w : World) (p q : String) :
    ((makedirs w p).1).fileExists q = w.fileExists q := by
  unfold World.fileExists
  rw [getFile_makedirs]

theorem dirs_setFile (w : World) (p : String) (fd : FileData) :
    (w.setFile p fd).dirs = w.dirs := rfl

theorem mask_setFile (w : World) (p : String) (fd : FileData) :
    (w.setFile p fd).dateMaskGlobal = w.dateMaskGlobal := rfl

/-- Lemma: `applyTimeshift` with the empty timeshift string is the identity. -/
theorem applyTimeshift_empty (d : StructTime) : applyTimeshift d "" = .ok d := by
  simp [applyTimeshift]

theorem finishDate_noshift (d : StructTime) (r : Int) :
    finishDate d r "" = .ok (if 1 < r then round_struct_time d r else d) := by
  simp [finishDate, applyTimeshift_empty]

/-- The date a pipeline `get_file_date` call resolves for a file whose
EXIF date is readable (rounding by `interval * 60`, no timeshift). -/
def pipelineDate (cam : Config) (d0 : StructTime) : StructTime :=
  if 1 < cam.interval * 60 then round_struct_time d0 (cam.interval * 60) else d0

/-- Lemma: `get_file_date` on a file with a readable pexif EXIF date and no
timeshift: deterministic result, world untouched. -/
theorem gfd_pexif (w : World) (fn : String) (r : Int) (m : String) (fd : FileData)
    (d0 : StructTime) (hf : w.getFile fn = some fd) (hp : fd.pexifDate = some d0) :
    get_file_date w fn "" r m =
      .ok (some (if 1 < r then round_struct_time d0 r else d0), w) := by
  simp [get_file_date, hf, hp, finishDate_noshift]

/-- Lemma: `get_file_date` with an empty timeshift never raises on a present
file, and the file stays present. -/
theorem gfd_total (w : World) (fn : String) (r : Int) (m : String) (fd : FileData)
    (hf : w.getFile fn = some fd) :
    ∃ x w', get_file_date w fn "" r m = .ok (x, w') ∧ (w'.getFile fn).isSome := by
  cases hp : fd.pexifDate with
  | some d0 =>
    refine ⟨some (if 1 < r then round_struct_time d0 r else d0), w,
      gfd_pexif w fn r m fd d0 hf hp, ?_⟩
    simp [hf]
  | none =>
    cases he : fd.exifreadDate with
    | some d =>
      refine ⟨some (if 1 < r then round_struct_time d r else d), w, ?_, ?_⟩
      · simp [get_file_date, hf, hp, he, finishDate_noshift]
      · simp [hf]
    | none =>
      cases hm : get_time_from_filename w.dateMaskGlobal fn m with
      | none =>
        refine ⟨none, w, ?_, ?_⟩
        · simp [get_file_date, hf, hp, he, hm]
        · simp [hf]
      | some date =>
        by_cases hw : fd.writable
        · refine ⟨some (if 1 < r then round_struct_time date r else date),
            w.setFile fn (write_exif_fd fd date), ?_, ?_⟩
          · simp [get_file_date, hf, hp, he, hm, hw, finishDate_noshift]
          · simp [getFile_setFile_self]
        · refine ⟨some (if 1 < r then round_struct_time date r else date), w, ?_, ?_⟩
          · simp [get_file_date, hf, hp, he, hm, hw, finishDate_noshift]
          · simp [hf]

/-- Frame property of `get_file_date`: on success it can only have
touched the resolved file itself (the best-effort EXIF write-back); every
other path and all non-file state is unchanged. -/
theorem gfd_frame (w : World) (fn ts : String) (r : Int) (m : String)
    (x : Option StructTime) (w' : World)
    (h : get_file_date w fn ts r m = .ok (x, w')) :
    w'.dirs = w.dirs ∧ w'.dateMaskGlobal = w.dateMaskGlobal ∧
    w'.mkdirFails = w.mkdirFails ∧ w'.copyFails = w.copyFails ∧
    w'.openFails = w.openFails ∧ w'.unlinkFails = w.unlinkFails ∧
    ∀ p, p ≠ fn → w'.getFile p = w.getFile p := by
  cases hf : w.getFile fn with
  | none => simp [get_file_date, hf] at h
  | some fd =>
    cases hp : fd.pexifDate with
    | some d0 =>
      cases hfin : finishDate d0 r ts with
      | error e => simp [get_file_date, hf, hp, hfin] at h
      | ok d =>
        simp [get_file_date, hf, hp, hfin] at h
        rw [← h.2]
        exact ⟨rfl, rfl, rfl, rfl, rfl, rfl, fun p _ => rfl⟩
    | none =>
      cases he : fd.exifreadDate with
      | some d1 =>
        cases hfin : finishDate d1 r ts with
        | error e => simp [get_file_date, hf, hp, he, hfin] at h
        | ok d =>
          simp [get_file_date, hf, hp, he, hfin] at h
          rw [← h.2]
          exact ⟨rfl, rfl, rfl, rfl, rfl, rfl, fun p _ => rfl⟩
      | none =>
        cases hm : get_time_from_filename w.dateMaskGlobal fn m with
        | none =>
          simp [get_file_date, hf, hp, he, hm] at h
          rw [← h.2]
          exact ⟨rfl, rfl, rfl, rfl, rfl, rfl, fun p _ => rfl⟩
        | some date =>
          cases hfin : finishDate date r ts with
          | error e => simp [get_file_date, hf, hp, he, hm, hfin] at h
          | ok d =>
            simp [get_file_date, hf, hp, he, hm, hfin] at h
            rw [← h.2]
            by_cases hw : fd.writable <;> simp [hw]
            exact ⟨rfl, rfl, rfl, rfl, rfl, rfl,
              fun p hpf => getFile_setFile_ne w fn p _ hpf⟩

/-! ## Concrete sample data for witnesses and counterexamples -/

/-- A concrete validated camera configuration (post `parse_structures`),
with `method = "move"`. -/
def camMove : Config :=
  { use := true, location := "loc", expt := "exp", cam_num := "01",
    source := "src", destination := "dst", archive_dest := "arc",
    expt_end := stOfCalendar 2013 12 31 0 0 0,
    expt_start := stOfCalendar 2013 11 1 0 0 0,
    interval := 1, image_types := ["jpg"], method := "move",
    resolutions := [Res.full "original"],
    sunrise := (5, 0), sunset := (22, 0), timezone := (11, 0),
    user := "u", mode := "batch", project_owner := "",
    ts_structure := "exp/loc-C01/" ++ TOK_folder ++ "/exp-loc-C01~" ++ TOK_res ++
      "-" ++ TOK_step,
    filename_date_mask := "", orientation := "", fn_parse := "",
    fn_structure := "exp-loc-C01~" ++ TOK_res ++ "-" ++ TOK_step,
    datasetID := "", timeshift := "", userfriendlyname := "exp-loc-C01",
    large_json := 0, json_updates := "" }

def camArchive : Config := { camMove with method := "archive" }

/-- Timestamp 2013-11-12 20:55:00 (a multiple of the 60-second rounding interval). -/
def tSample : StructTime := ⟨1384289700, 2, 0⟩

/-- Every failure of `get_new_file_name` is the Skip signal. -/
theorem gnfn_error_is_skip (a : Option StructTime) (b : Option String) (n : Nat)
    (ext : String) (e : Exc) (h : get_new_file_name a b n ext = .error e) :
    e = .skip := by
  cases a with
  | none => simp [get_new_file_name] at h; exact h.symm
  | some d =>
    cases b with
    | none => simp [get_new_file_name] at h; exact h.symm
    | some nm =>
      by_cases hnm : nm = ""
      · simp [get_new_file_name, hnm] at h
        exact h.symm
      · simp [get_new_file_name, hnm] at h

/-- C1 (amended): when the computed timestream destination path already
exists at processing time, `timestreamise_image` raises the Skip signal
for that image — `_dont_clobber` is invoked with `mode=SkipImage` there —
so nothing is written at the destination or at any `_1`-suffixed variant;
the `_1` append disambiguation applies only to the archive branch.  (The
same holds when the destination directory cannot be created.) -/
theorem C1_amended_existing_dest_skips (w : World) (cam : Config) (image : String)
    (subsec : Nat) (step : String) (fd : FileData) (d0 : StructTime)
    (hf : w.getFile image = some fd)
    (hp : fd.pexifDate = some d0)
    (ht : cam.timeshift = "")
    (hname : make_timestream_name cam "fullres" step ≠ "")
    (hex : w.fileExists
      (timestream_out_path cam (pipelineDate cam d0) image subsec step) = true) :
    ∃ w', timestreamise_image w cam image subsec step = .error (.skip, w') ∧
      ∀ p, w'.getFile p = w.getFile p := by
  have hf1 : ({ w with dateMaskGlobal := cam.filename_date_mask } : World).getFile
      image = some fd := hf
  simp only [timestream_out_path, pipelineDate] at hex
  simp only [timestreamise_image, ht,
    gfd_pexif _ image (cam.interval * 60) DATE_MASK fd d0 hf1 hp,
    get_new_file_name, hname, if_neg hname, ite_false]
  set w1 : World := { w with dateMaskGlobal := cam.filename_date_mask } with hw1
  set out := joinPath (joinPath cam.destination
      (formatStruct cam.ts_structure "original" "fullres" cam.cam_num step))
    (tsFileName (if 1 < cam.interval * 60 then
        round_struct_time d0 (cam.interval * 60) else d0)
      (make_timestream_name cam "fullres" step) subsec
      (lstripDot (splitext image).2)) with hout
  set mk := makedirs w1 (dirname out) with hmk
  have hgm : ∀ p, (mk.1).getFile p = w.getFile p := by
    intro p
    rw [hmk, getFile_makedirs]
    rfl
  by_cases hc : mk.2 = true ∧ ¬ (mk.1).dirExists (dirname out) = true
  · refine ⟨mk.1, ?_, hgm⟩
    rw [if_pos hc]
  · rw [if_neg hc]
    have hexx : (mk.1).fileExists out = true := by
      rw [hmk, fileExists_makedirs]
      exact hex
    refine ⟨mk.1, ?_, hgm⟩
    rw [if_pos hexx]

/-- C2 (amended): for every image whose resolved capture date lies outside
the configured experiment window, `process_image` terminates without error
and performs no filesystem change beyond reading the source — except that
resolving the date may itself write the reconstructed capture time back
into the source file's EXIF metadata (the `get_file_date` write-back),
so the source file can be modified; no other file or directory is
created, modified, moved or deleted. -/
theorem C2_amended_out_of_range (w : World) (cam : Config) (image ext : String)
    (d : StructTime) (w' : World)
    (hgfd : get_file_date w image cam.timeshift (cam.interval * 60) = .ok (some d, w'))
    (hout : stLt d cam.expt_start = true ∨ stLt cam.expt_end d = true) :
    process_image w cam image ext = .ok w' ∧
    w'.dirs = w.dirs ∧
    (∀ p, p ≠ image → w'.getFile p = w.getFile p) := by
  have hfr := gfd_frame w image cam.timeshift (cam.interval * 60) DATE_MASK
    (some d) w' hgfd
  refine ⟨?_, hfr.1, hfr.2.2.2.2.2.2⟩
  simp only [process_image, hgfd]
  rw [if_pos hout]

/-- With the source file present, an empty timeshift and a single-entry
resolution list, every failure inside `timestreamise_image` is raised as
the Skip signal: the call either succeeds or fails with `SkipImage`,
never with any other exception. -/
theorem tsi_skip_or_ok (w : World) (cam : Config) (image : String)
    (subsec : Nat) (step : String) (fd : FileData)
    (hf : w.getFile image = some fd) (ht : cam.timeshift = "")
    (hr : cam.resolutions.length ≤ 1) :
    ∃ w', timestreamise_image w cam image subsec step = .ok w' ∨
      timestreamise_image w cam image subsec step = .error (.skip, w') := by
  have hf1 : ({ w with dateMaskGlobal := cam.filename_date_mask } : World).getFile
      image = some fd := hf
  obtain ⟨x, w1, hgfd, _⟩ :=
    gfd_total { w with dateMaskGlobal := cam.filename_date_mask } image
      (cam.interval * 60) DATE_MASK fd hf1
  cases x with
  | none =>
    refine ⟨w1, Or.inr ?_⟩
    simp only [timestreamise_image, ht, hgfd]
  | some d =>
    cases hn : get_new_file_name (some d)
        (some (make_timestream_name cam "fullres" step)) subsec
        (lstripDot (splitext image).2) with
    | error e =>
      have he := gnfn_error_is_skip _ _ _ _ e hn
      subst he
      refine ⟨w1, Or.inr ?_⟩
      simp only [timestreamise_image, ht, hgfd, hn]
    | ok out_name =>
      simp only [timestreamise_image, ht, hgfd, hn]
      set out := joinPath (joinPath cam.destination
        (formatStruct cam.ts_structure "original" "fullres" cam.cam_num step))
        out_name with hout
      set mk := makedirs w1 (dirname out) with hmk
      by_cases hc : mk.2 = true ∧ ¬ (mk.1).dirExists (dirname out) = true
      · refine ⟨mk.1, Or.inr ?_⟩
        rw [if_pos hc]
      · rw [if_neg hc]
        by_cases hfe : (mk.1).fileExists out = true
        · refine ⟨mk.1, Or.inr ?_⟩
          rw [if_pos hfe]
        · rw [if_neg hfe]
          have hrF : ¬ cam.resolutions.length > 1 := by omega
          split
          · rename_i ew heq
            exact ⟨ew.2, Or.inr rfl⟩
          · rename_i w2 heq
            by_cases hor : cam.orientation ≠ "" ∧ step ≠ "raw"
            · refine ⟨(write_exif_date (rotate_image w2 cam.orientation out).2 out d).1,
                Or.inl ?_⟩
              simp [if_pos hor, hrF]
            · refine ⟨w2, Or.inl ?_⟩
              simp [if_neg hor, hrF]

/-- C3 (amended): failures raised inside `timestreamise_image`
(unresolvable date, empty name, mkdir failure for the timestream
directory, destination collision, copy failure) are the Skip signal and
are caught at the top of `process_image`, which then returns normally:
for `method` `copy` or `move` with a single-resolution configuration and
a readable source, `process_image` never propagates an exception,
whatever the failure oracles say.  (The general claim is false: failures
in the archive and resize branches of `process_image` are not wrapped —
see the counterexample, where an archive-branch copy failure escapes.) -/
theorem C3_amended_copy_move_never_raises (w : World) (cam : Config)
    (image ext : String) (fd : FileData)
    (hf : w.getFile image = some fd)
    (hm : cam.method = "copy" ∨ cam.method = "move")
    (hr : cam.resolutions.length ≤ 1)
    (ht : cam.timeshift = "") :
    ∃ w', process_image w cam image ext = .ok w' := by
  obtain ⟨x, w1, hgfd, hpres⟩ := gfd_total w image (cam.interval * 60) DATE_MASK fd hf
  have hnj : cam.method ≠ "json" := by
    rcases hm with h | h <;> rw [h] <;> decide
  have hnr : cam.method ≠ "resize" := by
    rcases hm with h | h <;> rw [h] <;> decide
  have hna : cam.method ≠ "archive" := by
    rcases hm with h | h <;> rw [h] <;> decide
  cases x with
  | none =>
    refine ⟨w1, ?_⟩
    simp only [process_image, ht, hgfd]
  | some d =>
    obtain ⟨fd1, hfd1⟩ : ∃ fd1, w1.getFile image = some fd1 := by
      cases h1 : w1.getFile image with
      | none => rw [h1] at hpres; simp at hpres
      | some fd1 => exact ⟨fd1, rfl⟩
    simp only [process_image, ht, hgfd]
    by_cases hrange : stLt d cam.expt_start = true ∨ stLt cam.expt_end d = true
    · exact ⟨w1, by rw [if_pos hrange]⟩
    · rw [if_neg hrange]
      by_cases hext : ¬ (stripDot (strLower (splitext image).2) = ext ∨
          (stripDot (strLower (splitext image).2) ∈ RAW_FORMATS ∧ ext = "raw"))
      · exact ⟨w1, by rw [if_pos hext]⟩
      · rw [if_neg hext]
        rw [if_neg hnj]
        by_cases hli : containsSubstr (strLower image) "last_image" = true
        · exact ⟨w1, by rw [if_pos hli]⟩
        · rw [if_neg hli]
          have hrz : ¬ (cam.method = "resize" ∧ ¬ (ext ∈ RAW_FORMATS)) := by
            rintro ⟨h1, _⟩
            exact hnr h1
          rw [if_neg hrz]
          obtain ⟨w2, hts⟩ := tsi_skip_or_ok w1 cam image 0
            (if strLower ext ∈ RAW_FORMATS then "raw" else "orig") fd1 hfd1 ht hr
          rcases hts with hts | hts <;>
            exact ⟨cleanup_source w2 cam image, by simp only [if_neg hna, hts]⟩

theorem copyfile_error_world (w : World) (s d : String) (ew : Exc × World)
    (h : copyfile w s d = .error ew) : ew.2 = w := by
  unfold copyfile at h
  by_cases h1 : ¬ w.dirExists (dirname d) = true
  · rw [if_pos h1] at h
    injection h with h'
    rw [← h']
  · rw [if_neg h1] at h
    by_cases h2 : w.copyFails.contains d = true
    · rw [if_pos h2] at h
      injection h with h'
      rw [← h']
    · rw [if_neg h2] at h
      cases hg : w.getFile s <;> rw [hg] at h
      · injection h with h'
        rw [← h']
      · exact absurd h (by simp)

theorem copyfile_ok_world (w : World) (s d : String) (w2 : World)
    (h : copyfile w s d = .ok w2) :
    ∃ fds, w.getFile s = some fds ∧ w2 = w.setFile d fds := by
  unfold copyfile at h
  by_cases h1 : ¬ w.dirExists (dirname d) = true
  · rw [if_pos h1] at h
    exact absurd h (by simp)
  · rw [if_neg h1] at h
    by_cases h2 : w.copyFails.contains d = true
    · rw [if_pos h2] at h
      exact absurd h (by simp)
    · rw [if_neg h2] at h
      cases hg : w.getFile s <;> rw [hg] at h
      · exact absurd h (by simp)
      · injection h with h'
        exact ⟨_, rfl, h'.symm⟩

theorem rotate_getFile_ne (w : World) (rot dest q : String) (h : q ≠ dest) :
    ((rotate_image w rot dest).2).getFile q = w.getFile q := by
  by_cases ho : w.openFails.contains dest = true
  · unfold rotate_image
    rw [if_pos ho]
  · cases hg : w.getFile dest with
    | none =>
      unfold rotate_image
      rw [if_neg ho, hg]
    | some fd =>
      unfold rotate_image
      rw [if_neg ho, hg]
      exact getFile_setFile_ne w dest q _ h

theorem write_exif_getFile_ne (w : World) (fn q : String) (dt : StructTime)
    (h : q ≠ fn) : ((write_exif_date w fn dt).1).getFile q = w.getFile q := by
  cases hg : w.getFile fn with
  | none => simp [write_exif_date, hg]
  | some fd =>
    by_cases hw : fd.writable = true
    · simp only [write_exif_date, hg, if_pos hw]
      exact getFile_setFile_ne w fn q _ h
    · simp only [write_exif_date, hg, if_neg hw]

theorem gnfn_ok_val (d : StructTime) (nm : String) (n : Nat) (e s : String)
    (h : get_new_file_name (some d) (some nm) n e = .ok s) :
    s = tsFileName d nm n e := by
  simp only [get_new_file_name] at h
  by_cases hnm : nm = ""
  · rw [if_pos hnm] at h
    exact absurd h (by simp)
  · rw [if_neg hnm] at h
    simp only [Except.ok.injEq] at h
    exact h.symm

theorem openFails_makedirs (w : World) (p : String) :
    ((makedirs w p).1).openFails = w.openFails := by
  unfold makedirs
  split_ifs <;> rfl

theorem resize_img_error_world (w : World) (f d : String) (a b : Option Int)
    (img : Option Content) (ew : Exc × World)
    (h : resize_img w f d a b img = .error ew) : ew.2 = w := by
  cases img with
  | none =>
    simp only [resize_img] at h
    injection h with h'
    rw [← h']
  | some c =>
    cases a with
    | none =>
      simp only [resize_img] at h
      injection h with h'
      rw [← h']
    | some wd =>
      cases b with
      | none =>
        simp only [resize_img] at h
        injection h with h'
        rw [← h']
      | some ht =>
        simp only [resize_img] at h
        by_cases h1 : ¬ w.dirExists (dirname d) = true
        · rw [if_pos h1] at h
          injection h with h'
          rw [← h']
        · rw [if_neg h1] at h
          exact absurd h (by simp)

theorem resize_img_ok_world (w : World) (f d : String) (a b : Option Int)
    (img : Option Content) (w2 : World)
    (h : resize_img w f d a b img = .ok w2) : ∃ fd2, w2 = w.setFile d fd2 := by
  cases img with
  | none =>
    simp only [resize_img] at h
    exact absurd h (by simp)
  | some c =>
    cases a with
    | none =>
      simp only [resize_img] at h
      exact absurd h (by simp)
    | some wd =>
      cases b with
      | none =>
        simp only [resize_img] at h
        exact absurd h (by simp)
      | some ht =>
        simp only [resize_img] at h
        by_cases h1 : ¬ w.dirExists (dirname d) = true
        · rw [if_pos h1] at h
          exact absurd h (by simp)
        · rw [if_neg h1] at h
          simp only [Except.ok.injEq] at h
          exact ⟨_, h.symm⟩

/-- Frame property of the `resize_function` loop: whatever its outcome,
the only paths that gain or change a file are the resolutions' derivative
paths. -/
theorem resize_loop_frame (cam : Config) (image_date : StructTime)
    (dest : String) (img : Option Content) (rs : List Res) (w : World) :
    ∃ w', (resize_loop cam image_date dest img rs w = .ok w' ∨
        ∃ e, resize_loop cam image_date dest img rs w = .error (e, w')) ∧
      ∀ p, (∀ rr ∈ rs, p ≠ resized_path cam image_date rr) →
        w'.getFile p = w.getFile p := by
  induction rs generalizing w with
  | nil => exact ⟨w, Or.inl rfl, fun p _ => rfl⟩
  | cons rr rest ih =>
    cases hn : get_new_file_name (some image_date)
        (some (make_timestream_name cam (resName rr (orient90 cam)) "orig")) with
    | error e =>
      refine ⟨w, Or.inr ⟨e, ?_⟩, fun p _ => rfl⟩
      simp only [resize_loop, hn]
    | ok outname =>
      have hov := gnfn_ok_val _ _ _ _ _ hn
      subst hov
      simp only [resize_loop, hn]
      have hrw : joinPath (joinPath cam.destination
          (formatStruct cam.ts_structure "output" (resName rr (orient90 cam))
            cam.cam_num "orig"))
          (tsFileName image_date
            (make_timestream_name cam (resName rr (orient90 cam)) "orig") 0
            "jpg") = resized_path cam image_date rr := rfl
      rw [hrw]
      by_cases hfe : w.fileExists (resized_path cam image_date rr) = true
      · rw [if_pos hfe]
        exact ⟨w, Or.inl rfl, fun p _ => rfl⟩
      · rw [if_neg hfe]
        set mk := makedirs w (dirname (resized_path cam image_date rr)) with hmk
        split
        · rename_i ew heq
          have hw := resize_img_error_world mk.1 dest _ _ _ img ew heq
          refine ⟨ew.2, Or.inr ⟨ew.1, rfl⟩, ?_⟩
          intro p _
          rw [hw, hmk, getFile_makedirs]
        · rename_i w2 heq
          obtain ⟨fd2, hw2⟩ := resize_img_ok_world mk.1 dest _ _ _ img w2 heq
          obtain ⟨w3, hres, hframe⟩ := ih w2
          refine ⟨w3, hres, ?_⟩
          intro p hp
          rw [hframe p (fun r hr => hp r (List.mem_cons_of_mem rr hr)), hw2,
            getFile_setFile_ne mk.1 _ p fd2 (hp rr (List.mem_cons_self rr rest)),
            hmk, getFile_makedirs]

/-- Frame property of `timestreamise_image` for a source whose EXIF date
pexif reads (no write-back happens) and whose destination copy the
open-for-resize step can read: the call succeeds or raises Skip (every
rotate and resize failure is downgraded to Skip), and every path other
than the computed timestream destination and the extra resolutions'
derivative paths is untouched — with any number of configured
resolutions. -/
theorem tsi_frame_pexif (w : World) (cam : Config) (image : String)
    (subsec : Nat) (step : String) (fd : FileData) (d0 : StructTime)
    (hf : w.getFile image = some fd) (hp : fd.pexifDate = some d0)
    (ht : cam.timeshift = "")
    (hopen : ¬ w.openFails.contains
      (timestream_out_path cam (pipelineDate cam d0) image subsec step) = true) :
    ∃ w', (timestreamise_image w cam image subsec step = .ok w' ∨
        timestreamise_image w cam image subsec step = .error (.skip, w')) ∧
      ∀ p, p ≠ timestream_out_path cam (pipelineDate cam d0) image subsec step →
        (∀ rr ∈ cam.resolutions.drop 1,
          p ≠ resized_path cam (pipelineDate cam d0) rr) →
        w'.getFile p = w.getFile p := by
  have hf1 : ({ w with dateMaskGlobal := cam.filename_date_mask } : World).getFile
      image = some fd := hf
  have hgfd := gfd_pexif { w with dateMaskGlobal := cam.filename_date_mask } image
    (cam.interval * 60) DATE_MASK fd d0 hf1 hp
  simp only [timestreamise_image, ht, hgfd]
  rw [show (if 1 < cam.interval * 60 then round_struct_time d0 (cam.interval * 60)
      else d0) = pipelineDate cam d0 from rfl]
  cases hn : get_new_file_name (some (pipelineDate cam d0))
      (some (make_timestream_name cam "fullres" step)) subsec
      (lstripDot (splitext image).2) with
  | error e =>
    have he := gnfn_error_is_skip _ _ _ _ e hn
    subst he
    exact ⟨_, Or.inr rfl, fun p _ _ => rfl⟩
  | ok out_name =>
    have hov := gnfn_ok_val _ _ _ _ _ hn
    subst hov
    set w1 : World := { w with dateMaskGlobal := cam.filename_date_mask } with hw1
    set out := joinPath (joinPath cam.destination
      (formatStruct cam.ts_structure "original" "fullres" cam.cam_num step))
      (tsFileName (pipelineDate cam d0) (make_timestream_name cam "fullres" step)
        subsec (lstripDot (splitext image).2)) with hout
    have houtp : timestream_out_path cam (pipelineDate cam d0) image subsec step =
        out := rfl
    rw [houtp] at hopen
    simp only []
    set mk := makedirs w1 (dirname out) with hmk
    have hgm : ∀ p, (mk.1).getFile p = w.getFile p := by
      intro p
      rw [hmk, getFile_makedirs]
      rfl
    rw [houtp]
    by_cases hc : mk.2 = true ∧ ¬ (mk.1).dirExists (dirname out) = true
    · rw [if_pos hc]
      exact ⟨mk.1, Or.inr rfl, fun p _ _ => hgm p⟩
    · rw [if_neg hc]
      by_cases hfe : (mk.1).fileExists out = true
      · rw [if_pos hfe]
        exact ⟨mk.1, Or.inr rfl, fun p _ _ => hgm p⟩
      · rw [if_neg hfe]
        split
        · rename_i ew heq
          have := copyfile_error_world mk.1 image out ew heq
          exact ⟨ew.2, Or.inr rfl, fun p _ _ => by rw [this, hgm p]⟩
        · rename_i w2 heq
          obtain ⟨fds, hfds, hw2⟩ := copyfile_ok_world mk.1 image out w2 heq
          have hw2g : ∀ p, p ≠ out → w2.getFile p = w.getFile p := by
            intro p hpo
            rw [hw2, getFile_setFile_ne mk.1 out p fds hpo, hgm p]
          by_cases hor : cam.orientation ≠ "" ∧ step ≠ "raw"
          · have hw3g : ∀ p, p ≠ out →
                ((write_exif_date (rotate_image w2 cam.orientation out).2 out
                  (pipelineDate cam d0)).1).getFile p = w.getFile p := by
              intro p hpo
              rw [write_exif_getFile_ne _ out p _ hpo,
                rotate_getFile_ne w2 cam.orientation out p hpo, hw2g p hpo]
            by_cases hmr : cam.resolutions.length > 1 ∧ step ≠ "raw"
            · obtain ⟨w4, hres, hframe⟩ := resize_loop_frame cam
                (pipelineDate cam d0) out
                ((rotate_image w2 cam.orientation out).1)
                (cam.resolutions.drop 1)
                ((write_exif_date (rotate_image w2 cam.orientation out).2 out
                  (pipelineDate cam d0)).1)
              have hfr : ∀ p, p ≠ out →
                  (∀ rr ∈ cam.resolutions.drop 1,
                    p ≠ resized_path cam (pipelineDate cam d0) rr) →
                  w4.getFile p = w.getFile p := fun p hpo hpres => by
                rw [hframe p hpres, hw3g p hpo]
              have hrf : resize_function
                  ((write_exif_date (rotate_image w2 cam.orientation out).2 out
                    (pipelineDate cam d0)).1) cam (pipelineDate cam d0) out
                  ((rotate_image w2 cam.orientation out).1) =
                  resize_loop cam (pipelineDate cam d0) out
                    ((rotate_image w2 cam.orientation out).1)
                    (cam.resolutions.drop 1)
                    ((write_exif_date (rotate_image w2 cam.orientation out).2 out
                      (pipelineDate cam d0)).1) := rfl
              rcases hres with hok | ⟨e, herr⟩
              · refine ⟨w4, Or.inl ?_, hfr⟩
                simp only [if_pos hor, if_pos hmr, hrf, hok]
              · refine ⟨w4, Or.inr ?_, hfr⟩
                simp only [if_pos hor, if_pos hmr, hrf, herr]
            · refine ⟨(write_exif_date (rotate_image w2 cam.orientation out).2 out
                (pipelineDate cam d0)).1, Or.inl ?_, fun p hpo _ => hw3g p hpo⟩
              simp only [if_pos hor, if_neg hmr]
          · have hof2 : w2.openFails = w.openFails := by
              rw [hw2]
              exact openFails_makedirs w1 (dirname out)
            by_cases hmr : cam.resolutions.length > 1 ∧ step ≠ "raw"
            · have hopen2 : ¬ w2.openFails.contains out = true := by
                rw [hof2]
                exact hopen
              obtain ⟨w4, hres, hframe⟩ := resize_loop_frame cam
                (pipelineDate cam d0) out
                ((w2.getFile out).map (fun fd => fd.content))
                (cam.resolutions.drop 1) w2
              have hfr : ∀ p, p ≠ out →
                  (∀ rr ∈ cam.resolutions.drop 1,
                    p ≠ resized_path cam (pipelineDate cam d0) rr) →
                  w4.getFile p = w.getFile p := fun p hpo hpres => by
                rw [hframe p hpres, hw2g p hpo]
              have hrf : resize_function w2 cam (pipelineDate cam d0) out
                  ((w2.getFile out).map (fun fd => fd.content)) =
                  resize_loop cam (pipelineDate cam d0) out
                    ((w2.getFile out).map (fun fd => fd.content))
                    (cam.resolutions.drop 1) w2 := rfl
              rcases hres with hok | ⟨e, herr⟩
              · refine ⟨w4, Or.inl ?_, hfr⟩
                simp only [if_neg hor, if_pos hmr, if_neg hopen2, hrf, hok]
              · refine ⟨w4, Or.inr ?_, hfr⟩
                simp only [if_neg hor, if_pos hmr, if_neg hopen2, hrf, herr]
            · refine ⟨w2, Or.inl ?_, fun p hpo _ => hw2g p hpo⟩
              simp only [if_neg hor, if_neg hmr]

theorem makedirs_ok (w : World) (p : String)
    (h : w.dirExists p = true ∨ ¬ w.mkdirFails.contains p = true) :
    ((makedirs w p).1).dirExists p = true := by
  unfold makedirs
  by_cases h1 : w.dirExists p = true
  · rw [if_pos h1]
    exact h1
  · rw [if_neg h1]
    rcases h with h | h
    · exact absurd h h1
    · rw [if_neg h]
      unfold World.dirExists
      simp

theorem copyFails_makedirs (w : World) (p : String) :
    ((makedirs w p).1).copyFails = w.copyFails := by
  unfold makedirs
  split_ifs <;> rfl

theorem unlink_getFile_ne (w : World) (p q : String) (h : q ≠ p) :
    (unlinkOp w p).getFile q = w.getFile q := by
  unfold unlinkOp
  split_ifs
  · rfl
  · cases hg : w.getFile p
    · rfl
    · exact getFile_remFile_ne w p q h

/-- C4 (amended): for an image processed with `method="archive"` whose
EXIF capture date is readable (so date resolution performs no write-back),
the byte-identical original is copied into the archive tree before any
transform, and it is still byte-identical — the very `FileData` the source
held on entry, with no rotate/resize constructor — when `process_image`
returns, even when rotation and any number of extra resolutions are also
configured: the later transforms touch only the timestream destination
copy and its derivative paths, never the archived copy.  (The unamended
claim is false when the date must be recovered from the filename: the
resolver's EXIF write-back changes the source's bytes before the archive
copy — see the counterexample.) -/
theorem C4_amended_archive_pristine (w : World) (cam : Config) (image ext : String)
    (fd : FileData) (d0 : StructTime)
    (hm : cam.method = "archive")
    (hf : w.getFile image = some fd)
    (hp : fd.pexifDate = some d0)
    (ht : cam.timeshift = "")
    (hrange : ¬ (stLt (pipelineDate cam d0) cam.expt_start = true ∨
      stLt cam.expt_end (pipelineDate cam d0) = true))
    (hext : stripDot (strLower (splitext image).2) = ext ∨
      (stripDot (strLower (splitext image).2) ∈ RAW_FORMATS ∧ ext = "raw"))
    (hli : ¬ containsSubstr (strLower image) "last_image" = true)
    (hname : make_timestream_name cam "fullres" "orig" ≠ "")
    (hfresh : w.fileExists (archive_path cam image ext) = false)
    (hdir : w.dirExists (dirname (archive_path cam image ext)) = true ∨
      ¬ w.mkdirFails.contains (dirname (archive_path cam image ext)) = true)
    (hcp : ¬ w.copyFails.contains (archive_path cam image ext) = true)
    (hopen : ¬ w.openFails.contains (timestream_out_path cam
      (pipelineDate cam d0) image 0
      (if strLower ext ∈ RAW_FORMATS then "raw" else "orig")) = true)
    (hap1 : archive_path cam image ext ≠ image)
    (hap2 : archive_path cam image ext ≠ timestream_out_path cam
      (pipelineDate cam d0) image 0
      (if strLower ext ∈ RAW_FORMATS then "raw" else "orig"))
    (hap3 : ∀ rr ∈ cam.resolutions.drop 1,
      archive_path cam image ext ≠ resized_path cam (pipelineDate cam d0) rr) :
    ∃ w', process_image w cam image ext = .ok w' ∧
      w'.getFile (archive_path cam image ext) = some fd := by
  have hgfd := gfd_pexif w image (cam.interval * 60) DATE_MASK fd d0 hf hp
  have hnj : ¬ cam.method = "json" := by rw [hm]; decide
  have hrz : ¬ (cam.method = "resize" ∧ ¬ (ext ∈ RAW_FORMATS)) := by
    rintro ⟨h1, _⟩
    rw [hm] at h1
    exact absurd h1 (by decide)
  simp only [process_image, ht, hgfd]
  rw [show (if 1 < cam.interval * 60 then round_struct_time d0 (cam.interval * 60)
      else d0) = pipelineDate cam d0 from rfl]
  rw [if_neg hrange, if_neg (not_not_intro hext), if_neg hnj, if_neg hli,
    if_neg hrz]
  simp only []
  rw [if_pos hm]
  -- archive branch
  set ap0 := archive_path cam image ext with hap0
  unfold archive_branch
  cases hn : get_new_file_name (some (pipelineDate cam d0))
      (some (make_timestream_name cam "fullres" "orig")) 0 "jpg" with
  | error e =>
    have hok : get_new_file_name (some (pipelineDate cam d0))
        (some (make_timestream_name cam "fullres" "orig")) 0 "jpg" =
        .ok (tsFileName (pipelineDate cam d0)
          (make_timestream_name cam "fullres" "orig") 0 "jpg") := by
      simp [get_new_file_name, hname]
    rw [hok] at hn
    exact absurd hn (by simp)
  | ok nm =>
    simp only []
    set mk2 := makedirs w (dirname ap0) with hmk2
    have hmd : (mk2.1).dirExists (dirname ap0) = true := makedirs_ok w _ hdir
    have hc : ¬ (mk2.2 = true ∧ ¬ (mk2.1).dirExists (dirname ap0) = true) :=
      fun hcc => hcc.2 hmd
    rw [if_neg hc]
    have hfe : ¬ (mk2.1).fileExists ap0 = true := by
      rw [hmk2, fileExists_makedirs, hfresh]
      decide
    have hdc : dont_clobber_append mk2.1 ap0 = ap0 := by
      unfold dont_clobber_append
      rw [if_neg hfe]
    rw [hdc]
    have hfsrc : (mk2.1).getFile image = some fd := by
      rw [hmk2, getFile_makedirs]
      exact hf
    have hcopy : copyfile mk2.1 image ap0 = .ok (mk2.1.setFile ap0 fd) := by
      unfold copyfile
      rw [if_neg (not_not_intro hmd), if_neg (by rw [hmk2, copyFails_makedirs]; exact hcp),
        hfsrc]
    rw [hcopy]
    set w3 := mk2.1.setFile ap0 fd with hw3
    have hf3 : w3.getFile image = some fd := by
      rw [hw3, getFile_setFile_ne mk2.1 ap0 image fd (Ne.symm hap1)]
      exact hfsrc
    have hopen3 : ¬ w3.openFails.contains (timestream_out_path cam
        (pipelineDate cam d0) image 0
        (if strLower ext ∈ RAW_FORMATS then "raw" else "orig")) = true := by
      rw [hw3]
      have hofe : (mk2.1.setFile ap0 fd).openFails = w.openFails :=
        openFails_makedirs w (dirname ap0)
      rw [hofe]
      exact hopen
    obtain ⟨w4, hts, hframe⟩ := tsi_frame_pexif w3 cam image 0
      (if strLower ext ∈ RAW_FORMATS then "raw" else "orig") fd d0 hf3 hp ht hopen3
    have hap0out := hap2
    have hw4ap : w4.getFile ap0 = some fd := by
      rw [hframe ap0 hap0out hap3, hw3, getFile_setFile_self]
    have hclean : (cleanup_source w4 cam image).getFile ap0 = some fd := by
      unfold cleanup_source
      rw [if_pos (Or.inr hm)]
      rw [unlink_getFile_ne w4 image ap0 hap1]
      exact hw4ap
    have hshow : ∀ res : Except (Exc × World) World,
        timestreamise_image w3 cam image 0
          (if strLower ext ∈ RAW_FORMATS then "raw" else "orig") = res →
        (match timestreamise_image w3 cam image 0
            (if strLower ext ∈ RAW_FORMATS then "raw" else "orig") with
          | .ok w => (.ok (cleanup_source w cam image) : Except (Exc × World) World)
          | .error (.skip, w) => .ok (cleanup_source w cam image)
          | .error ew => .error ew) =
          (match res with
          | .ok w => (.ok (cleanup_source w cam image) : Except (Exc × World) World)
          | .error (.skip, w) => .ok (cleanup_source w cam image)
          | .error ew => .error ew) := by
      intro res hres
      rw [hres]
    rcases hts with hts | hts
    · refine ⟨cleanup_source w4 cam image, ?_, hclean⟩
      rw [hn]
      exact hshow (.ok w4) hts
    · refine ⟨cleanup_source w4 cam image, ?_, hclean⟩
      rw [hn]
      exact hshow (.error (.skip, w4)) hts

/-! ## Non-interference of the mutable date-mask global (C10) -/

/-- Overwrite the process-wide date-mask global. -/
def setG (g : String) (w : World) : World := { w with dateMaskGlobal := g }

def mapExcW (f : World → World) :
    Except (Exc × World) World → Except (Exc × World) World
  | .ok w => .ok (f w)
  | .error (e, w) => .error (e, f w)

def mapExcPW (f : World → World) :
    Except (Exc × World) (Option StructTime × World) →
      Except (Exc × World) (Option StructTime × World)
  | .ok (x, w) => .ok (x, f w)
  | .error (e, w) => .error (e, f w)

theorem setG_setG (a b : String) (w : World) : setG a (setG b w) = setG a w := rfl

theorem mapExcW_mapExcW (a b : String) (r : Except (Exc × World) World) :
    mapExcW (setG a) (mapExcW (setG b) r) = mapExcW (setG a) r := by
  cases r with
  | ok w => rfl
  | error ew => obtain ⟨e, w⟩ := ew; rfl

/-- The filename scanner consults the mutable global only when its mask
argument is empty. -/
theorem gtff_global_irrel (g1 g2 fn mask : String) (h : mask.data.length ≠ 0) :
    get_time_from_filename g1 fn mask = get_time_from_filename g2 fn mask := by
  unfold get_time_from_filename
  rw [if_neg h, if_neg h]

theorem dirExists_setG (g : String) (w : World) (p : String) :
    (setG g w).dirExists p = w.dirExists p := rfl

theorem mkdirFails_setG (g : String) (w : World) :
    (setG g w).mkdirFails = w.mkdirFails := rfl

theorem copyFails_setG (g : String) (w : World) :
    (setG g w).copyFails = w.copyFails := rfl

theorem openFails_setG (g : String) (w : World) :
    (setG g w).openFails = w.openFails := rfl

theorem unlinkFails_setG (g : String) (w : World) :
    (setG g w).unlinkFails = w.unlinkFails := rfl

theorem getFile_setG (g : String) (w : World) (p : String) :
    (setG g w).getFile p = w.getFile p := rfl

theorem fileExists_setG (g : String) (w : World) (p : String) :
    (setG g w).fileExists p = w.fileExists p := rfl

theorem makedirs_setG (g : String) (w : World) (p : String) :
    makedirs (setG g w) p = (setG g (makedirs w p).1, (makedirs w p).2) := by
  unfold makedirs
  simp only [dirExists_setG, mkdirFails_setG]
  by_cases h1 : w.dirExists p = true
  · rw [if_pos h1, if_pos h1]
  · rw [if_neg h1, if_neg h1]
    by_cases h2 : w.mkdirFails.contains p = true
    · rw [if_pos h2, if_pos h2]
    · rw [if_neg h2, if_neg h2]
      rfl

theorem copyfile_setG (g : String) (w : World) (s d : String) :
    copyfile (setG g w) s d = mapExcW (setG g) (copyfile w s d) := by
  unfold copyfile
  simp only [dirExists_setG, copyFails_setG, getFile_setG]
  by_cases h1 : ¬ w.dirExists (dirname d) = true
  · rw [if_pos h1, if_pos h1]
    rfl
  · rw [if_neg h1, if_neg h1]
    by_cases h2 : w.copyFails.contains d = true
    · rw [if_pos h2, if_pos h2]
      rfl
    · rw [if_neg h2, if_neg h2]
      cases hg : w.getFile s <;> rfl

theorem rotate_setG (g : String) (w : World) (r d : String) :
    rotate_image (setG g w) r d =
      ((rotate_image w r d).1, setG g (rotate_image w r d).2) := by
  unfold rotate_image
  simp only [openFails_setG, getFile_setG]
  by_cases h1 : w.openFails.contains d = true
  · rw [if_pos h1, if_pos h1]
  · rw [if_neg h1, if_neg h1]
    cases hg : w.getFile d <;> rfl

theorem write_exif_setG (g : String) (w : World) (fn : String) (dt : StructTime) :
    write_exif_date (setG g w) fn dt =
      (setG g (write_exif_date w fn dt).1, (write_exif_date w fn dt).2) := by
  unfold write_exif_date
  simp only [getFile_setG]
  cases hg : w.getFile fn with
  | none => rfl
  | some fd =>
    by_cases hw : fd.writable = true
    · simp [hw]
      rfl
    · simp [hw]

theorem resize_img_setG (g : String) (w : World) (f d : String)
    (tw th : Option Int) (ia : Option Content) :
    resize_img (setG g w) f d tw th ia = mapExcW (setG g) (resize_img w f d tw th ia) := by
  unfold resize_img
  simp only [dirExists_setG, getFile_setG]
  cases ia with
  | none => rfl
  | some c =>
    cases tw with
    | none => cases th <;> rfl
    | some wd =>
      cases th with
      | none => rfl
      | some ht =>
        by_cases h1 : ¬ w.dirExists (dirname d) = true
        · simp [mapExcW, h1]
        · simp [mapExcW, h1]
          rfl

theorem gfd_setG (g : String) (w : World) (fn ts : String) (r : Int) :
    get_file_date (setG g w) fn ts r DATE_MASK =
      mapExcPW (setG g) (get_file_date w fn ts r DATE_MASK) := by
  unfold get_file_date
  simp only [getFile_setG]
  cases hf : w.getFile fn with
  | none => rfl
  | some fd =>
    cases hp : fd.pexifDate with
    | some d0 =>
      cases hfin : finishDate d0 r ts <;>
        simp [hp, hfin, mapExcPW, setG, World.setFile]
    | none =>
      cases he : fd.exifreadDate with
      | some d1 =>
        cases hfin : finishDate d1 r ts <;>
          simp [hp, he, hfin, mapExcPW, setG, World.setFile]
      | none =>
        have hscan := gtff_global_irrel g w.dateMaskGlobal fn DATE_MASK (by decide)
        cases hm : get_time_from_filename w.dateMaskGlobal fn DATE_MASK with
        | none => simp [hp, he, hscan, hm, mapExcPW, setG]
        | some date =>
          by_cases hw : fd.writable = true <;>
            cases hfin : finishDate date r ts <;>
              simp [hp, he, hscan, hm, hw, hfin, mapExcPW, setG, World.setFile]

theorem resize_loop_setG (cam : Config) (image_date : StructTime) (dest : String)
    (ia : Option Content) (l : List Res) :
    ∀ (w : World) (g : String),
      resize_loop cam image_date dest ia l (setG g w) =
        mapExcW (setG g) (resize_loop cam image_date dest ia l w) := by
  induction l with
  | nil => intro w g; rfl
  | cons rr rest ih =>
    intro w g
    unfold resize_loop
    cases hn : get_new_file_name (some image_date)
        (some (make_timestream_name cam (resName rr (orient90 cam)) "orig")) with
    | error e => simp [hn, mapExcW]
    | ok outname =>
      simp only [hn, fileExists_setG]
      by_cases hfe : w.fileExists (joinPath (joinPath cam.destination
          (formatStruct cam.ts_structure "output" (resName rr (orient90 cam))
            cam.cam_num "orig")) outname) = true
      · simp [hfe, mapExcW]
      · simp only [hfe, if_neg, ite_false, Bool.false_eq_true]
        rw [makedirs_setG, resize_img_setG]
        cases hri : resize_img (makedirs w (dirname (joinPath (joinPath cam.destination
            (formatStruct cam.ts_structure "output" (resName rr (orient90 cam))
              cam.cam_num "orig")) outname))).1 dest
            (joinPath (joinPath cam.destination
              (formatStruct cam.ts_structure "output" (resName rr (orient90 cam))
                cam.cam_num "orig")) outname)
            (resDims rr).1 (resDims rr).2 ia with
        | error ew => simp [hri, mapExcW]
        | ok w2 => simp [hri, mapExcW, ih]

/-- A camera configuration with only the filename date mask replaced. -/
def camSet (cam : Config) (g : String) : Config := { cam with filename_date_mask := g }

theorem camSet_mask (cam : Config) (g : String) :
    (camSet cam g).filename_date_mask = g := rfl

theorem camSet_timeshift (cam : Config) (g : String) :
    (camSet cam g).timeshift = cam.timeshift := rfl

theorem camSet_interval (cam : Config) (g : String) :
    (camSet cam g).interval = cam.interval := rfl

theorem camSet_destination (cam : Config) (g : String) :
    (camSet cam g).destination = cam.destination := rfl

theorem camSet_ts_structure (cam : Config) (g : String) :
    (camSet cam g).ts_structure = cam.ts_structure := rfl

theorem camSet_cam_num (cam : Config) (g : String) :
    (camSet cam g).cam_num = cam.cam_num := rfl

theorem camSet_fn_structure (cam : Config) (g : String) :
    (camSet cam g).fn_structure = cam.fn_structure := rfl

theorem camSet_orientation (cam : Config) (g : String) :
    (camSet cam g).orientation = cam.orientation := rfl

theorem camSet_resolutions (cam : Config) (g : String) :
    (camSet cam g).resolutions = cam.resolutions := rfl

theorem camSet_method (cam : Config) (g : String) :
    (camSet cam g).method = cam.method := rfl

theorem camSet_expt_start (cam : Config) (g : String) :
    (camSet cam g).expt_start = cam.expt_start := rfl

theorem camSet_expt_end (cam : Config) (g : String) :
    (camSet cam g).expt_end = cam.expt_end := rfl

theorem camSet_archive_dest (cam : Config) (g : String) :
    (camSet cam g).archive_dest = cam.archive_dest := rfl

theorem camSet_expt (cam : Config) (g : String) :
    (camSet cam g).expt = cam.expt := rfl

theorem camSet_location (cam : Config) (g : String) :
    (camSet cam g).location = cam.location := rfl

theorem camSet_datasetID (cam : Config) (g : String) :
    (camSet cam g).datasetID = cam.datasetID := rfl

theorem camSet_source (cam : Config) (g : String) :
    (camSet cam g).source = cam.source := rfl

theorem make_timestream_name_camSet (cam : Config) (g res step folder : String) :
    make_timestream_name (camSet cam g) res step folder =
      make_timestream_name cam res step folder := rfl

theorem resize_loop_camSet (cam : Config) (g : String) (image_date : StructTime)
    (dest : String) (ia : Option Content) (l : List Res) (w : World) :
    resize_loop (camSet cam g) image_date dest ia l w =
      resize_loop cam image_date dest ia l w := by
  induction l generalizing w with
  | nil => rfl
  | cons rr rest ih =>
    unfold resize_loop
    have horient : orient90 (camSet cam g) = orient90 cam := rfl
    simp only [horient, make_timestream_name_camSet, camSet_destination,
      camSet_ts_structure, camSet_cam_num]
    cases hn : get_new_file_name (some image_date)
        (some (make_timestream_name cam (resName rr (orient90 cam)) "orig")) with
    | error e => simp [hn]
    | ok outname =>
      simp only [hn]
      by_cases hfe : w.fileExists (joinPath (joinPath cam.destination
          (formatStruct cam.ts_structure "output" (resName rr (orient90 cam))
            cam.cam_num "orig")) outname) = true
      · rw [if_pos hfe, if_pos hfe]
      · rw [if_neg hfe, if_neg hfe]
        cases hri : resize_img (makedirs w (dirname (joinPath (joinPath cam.destination
            (formatStruct cam.ts_structure "output" (resName rr (orient90 cam))
              cam.cam_num "orig")) outname))).1 dest
            (joinPath (joinPath cam.destination
              (formatStruct cam.ts_structure "output" (resName rr (orient90 cam))
                cam.cam_num "orig")) outname)
            (resDims rr).1 (resDims rr).2 ia with
        | error ew => simp [hri]
        | ok w2 => simp [hri, ih]

theorem resize_function_setG (w : World) (cam : Config) (image_date : StructTime)
    (dest : String) (ia : Option Content) (g : String) :
    resize_function (setG g w) cam image_date dest ia =
      mapExcW (setG g) (resize_function w cam image_date dest ia) :=
  resize_loop_setG cam image_date dest ia (cam.resolutions.drop 1) w g

theorem resize_function_camSet (w : World) (cam : Config) (g : String)
    (image_date : StructTime) (dest : String) (ia : Option Content) :
    resize_function w (camSet cam g) image_date dest ia =
      resize_function w cam image_date dest ia := by
  unfold resize_function
  rw [camSet_resolutions]
  exact resize_loop_camSet cam g image_date dest ia (cam.resolutions.drop 1) w

/-- Lemma: `timestreamise_image` with the camera mask set to `g` equals the run
with the mask set to `""`, with `g` re-installed in the global of every
resulting world: the mask value only flows into the dead global. -/
theorem tsi_mask_shift (w : World) (cam : Config) (g : String) (image : String)
    (subsec : Nat) (step : String) :
    timestreamise_image w (camSet cam g) image subsec step =
      mapExcW (setG g) (timestreamise_image w (camSet cam "") image subsec step) := by
  unfold timestreamise_image
  simp only [camSet_mask, camSet_timeshift, camSet_interval, camSet_destination,
    camSet_ts_structure, camSet_cam_num, make_timestream_name_camSet,
    camSet_orientation, camSet_resolutions]
  rw [show ({ w with dateMaskGlobal := g } : World) =
    setG g { w with dateMaskGlobal := "" } from rfl]
  rw [gfd_setG g { w with dateMaskGlobal := "" } image cam.timeshift
    (cam.interval * 60)]
  cases hgfd : get_file_date { w with dateMaskGlobal := "" } image cam.timeshift
      (cam.interval * 60) with
  | error ew =>
    obtain ⟨e, w'⟩ := ew
    simp [mapExcPW, mapExcW]
  | ok xw =>
    obtain ⟨x, w'⟩ := xw
    cases x with
    | none => simp [mapExcPW, mapExcW]
    | some d =>
      simp only [mapExcPW]
      cases hn : get_new_file_name (some d)
          (some (make_timestream_name cam "fullres" step)) subsec
          (lstripDot (splitext image).2) with
      | error e => simp [hn, mapExcW]
      | ok out_name =>
        simp only [hn]
        rw [makedirs_setG]
        simp only [dirExists_setG, fileExists_setG]
        set out := joinPath (joinPath cam.destination
          (formatStruct cam.ts_structure "original" "fullres" cam.cam_num step))
          out_name with hout
        set mk := makedirs w' (dirname out) with hmk
        by_cases hc : mk.2 = true ∧ ¬ (mk.1).dirExists (dirname out) = true
        · rw [if_pos hc, if_pos hc]
          simp [mapExcW]
        · rw [if_neg hc, if_neg hc]
          by_cases hfe : (mk.1).fileExists out = true
          · rw [if_pos hfe, if_pos hfe]
            simp [mapExcW]
          · rw [if_neg hfe, if_neg hfe]
            rw [copyfile_setG]
            cases hcf : copyfile mk.1 image out with
            | error ew =>
              simp [mapExcW]
            | ok w2 =>
              simp only [mapExcW]
              by_cases hor : cam.orientation ≠ "" ∧ step ≠ "raw"
              · rw [if_pos hor, if_pos hor]
                rw [rotate_setG, write_exif_setG]
                simp only []
                by_cases hres : cam.resolutions.length > 1 ∧ step ≠ "raw"
                · rw [if_pos hres, if_pos hres]
                  rw [resize_function_setG]
                  cases hrf : resize_function (write_exif_date
                      (rotate_image w2 cam.orientation out).2 out d).1 cam d out
                      (rotate_image w2 cam.orientation out).1 with
                  | error ew => simp [resize_function_camSet, hrf, mapExcW]
                  | ok w3 => simp [resize_function_camSet, hrf, mapExcW]
                · rw [if_neg hres, if_neg hres]
              · rw [if_neg hor, if_neg hor]
                by_cases hres : cam.resolutions.length > 1 ∧ step ≠ "raw"
                · rw [if_pos hres, if_pos hres]
                  simp only [openFails_setG, getFile_setG]
                  by_cases hop : w2.openFails.contains out = true
                  · rw [if_pos hop, if_pos hop]
                  · rw [if_neg hop, if_neg hop]
                    simp only []
                    rw [if_pos hres, if_pos hres]
                    rw [resize_function_setG]
                    cases hrf : resize_function w2 cam d out
                        (Option.map (fun fd => fd.content) (w2.getFile out)) with
                    | error ew => simp [resize_function_camSet, hrf, mapExcW]
                    | ok w3 => simp [resize_function_camSet, hrf, mapExcW]
                · rw [if_neg hres, if_neg hres]
                  simp [hres, mapExcW]

theorem unlink_setG (g : String) (w : World) (p : String) :
    unlinkOp (setG g w) p = setG g (unlinkOp w p) := by
  unfold unlinkOp
  simp only [unlinkFails_setG, getFile_setG]
  by_cases hu : w.unlinkFails.contains p = true
  · rw [if_pos hu, if_pos hu]
  · rw [if_neg hu, if_neg hu]
    cases hg : w.getFile p <;> rfl

theorem cleanup_camSet (w : World) (cam : Config) (g image : String) :
    cleanup_source w (camSet cam g) image = cleanup_source w cam image := by
  unfold cleanup_source
  rw [camSet_method]

theorem cleanup_setG (g : String) (w : World) (cam : Config) (image : String) :
    cleanup_source (setG g w) cam image = setG g (cleanup_source w cam image) := by
  unfold cleanup_source
  by_cases hm : cam.method = "move" ∨ cam.method = "archive"
  · rw [if_pos hm, if_pos hm]
    exact unlink_setG g w image
  · rw [if_neg hm, if_neg hm]

theorem archive_branch_camSet (w : World) (cam : Config) (g image ext : String)
    (d : StructTime) :
    archive_branch w (camSet cam g) image ext d = archive_branch w cam image ext d :=
  rfl

/-- C10: the resolved capture timestamp — and with it the entire
observable outcome of `process_image` — is independent of the camera's
configured `filename_date_mask`: two runs differing only in that field
produce identical results once the value of the dead process-wide
`DATE_MASK` global is disregarded.  `get_file_date`'s `date_mask`
parameter defaults to the module constant captured at definition time,
the pipeline never passes the camera's mask explicitly, and
`get_time_from_filename` consults the mutated global only when its mask
argument is empty, which the nonempty constant never is. -/
theorem C10_mask_independent (w : World) (cam : Config) (m1 m2 image ext : String) :
    mapExcW (setG "") (process_image w (camSet cam m1) image ext) =
      mapExcW (setG "") (process_image w (camSet cam m2) image ext) := by
  have htsi : ∀ v : World,
      mapExcW (setG "")
        (match timestreamise_image v (camSet cam m1) image 0
            (if strLower ext ∈ RAW_FORMATS then "raw" else "orig") with
          | .ok u => .ok (cleanup_source u (camSet cam m1) image)
          | .error (.skip, u) => .ok (cleanup_source u (camSet cam m1) image)
          | .error ew => .error ew) =
      mapExcW (setG "")
        (match timestreamise_image v (camSet cam m2) image 0
            (if strLower ext ∈ RAW_FORMATS then "raw" else "orig") with
          | .ok u => .ok (cleanup_source u (camSet cam m2) image)
          | .error (.skip, u) => .ok (cleanup_source u (camSet cam m2) image)
          | .error ew => .error ew) := by
    intro v
    rw [tsi_mask_shift v cam m1 image 0
        (if strLower ext ∈ RAW_FORMATS then "raw" else "orig"),
      tsi_mask_shift v cam m2 image 0
        (if strLower ext ∈ RAW_FORMATS then "raw" else "orig")]
    cases h0 : timestreamise_image v (camSet cam "") image 0
        (if strLower ext ∈ RAW_FORMATS then "raw" else "orig") with
    | ok w4 => simp [mapExcW, cleanup_camSet, cleanup_setG, setG_setG]
    | error ew =>
      obtain ⟨e, w4⟩ := ew
      cases e <;> simp [mapExcW, cleanup_camSet, cleanup_setG, setG_setG]
  have htsi2 : ∀ (v : World) (dd : StructTime),
      mapExcW (setG "")
        (match (if cam.method = "archive" then archive_branch v cam image ext dd
            else .ok v) with
          | .error ew => .error ew
          | .ok u =>
            match timestreamise_image u (camSet cam m1) image 0
                (if strLower ext ∈ RAW_FORMATS then "raw" else "orig") with
              | .ok u2 => .ok (cleanup_source u2 (camSet cam m1) image)
              | .error (.skip, u2) => .ok (cleanup_source u2 (camSet cam m1) image)
              | .error ew => .error ew) =
      mapExcW (setG "")
        (match (if cam.method = "archive" then archive_branch v cam image ext dd
            else .ok v) with
          | .error ew => .error ew
          | .ok u =>
            match timestreamise_image u (camSet cam m2) image 0
                (if strLower ext ∈ RAW_FORMATS then "raw" else "orig") with
              | .ok u2 => .ok (cleanup_source u2 (camSet cam m2) image)
              | .error (.skip, u2) => .ok (cleanup_source u2 (camSet cam m2) image)
              | .error ew => .error ew) := by
    intro v dd
    cases har : (if cam.method = "archive" then archive_branch v cam image ext dd
        else .ok v) with
    | error ew => rfl
    | ok u => exact htsi u
  unfold process_image
  simp only [camSet_timeshift, camSet_interval, camSet_expt_start, camSet_expt_end,
    camSet_method, resize_function_camSet, archive_branch_camSet]
  cases hgfd : get_file_date w image cam.timeshift (cam.interval * 60) with
  | error ew => rfl
  | ok xw =>
    obtain ⟨x, w1⟩ := xw
    cases x with
    | none => rfl
    | some d =>
      simp only []
      by_cases hrange : stLt d cam.expt_start = true ∨ stLt cam.expt_end d = true
      · rw [if_pos hrange, if_pos hrange]
      · rw [if_neg hrange, if_neg hrange]
        by_cases hext : ¬ (stripDot (strLower (splitext image).2) = ext ∨
            (stripDot (strLower (splitext image).2) ∈ RAW_FORMATS ∧ ext = "raw"))
        · rw [if_pos hext, if_pos hext]
        · rw [if_neg hext, if_neg hext]
          by_cases hj : cam.method = "json"
          · rw [if_pos hj, if_pos hj]
          · rw [if_neg hj, if_neg hj]
            by_cases hli : containsSubstr (strLower image) "last_image" = true
            · rw [if_pos hli, if_pos hli]
            · rw [if_neg hli, if_neg hli]
              by_cases hrz : cam.method = "resize" ∧ ¬ (ext ∈ RAW_FORMATS)
              · rw [if_pos hrz]
                by_cases hop : w1.openFails.contains image = true
                · rw [if_pos hop]
                · rw [if_neg hop]
                  cases hgf : w1.getFile image with
                  | none => rfl
                  | some fd =>
                    simp only []
                    cases hrf : resize_function w1 cam d image (some fd.content) with
                    | error ew => rfl
                    | ok w2 => exact htsi2 w2 d
              · rw [if_neg hrz]
                exact htsi2 w1 d

deriving instance DecidableEq for Except

/-! ## Concrete scenarios for the counterexamples and witnesses -/

/-- The timestream destination that `camMove` computes for a source with
capture time 2013-11-12 20:55:00. -/
def outSample : String :=
  "dst/exp/loc-C01/original/exp-loc-C01~fullres-orig/2013/2013_11/2013_11_12/" ++
    "2013_11_12_20/exp-loc-C01~fullres-orig_2013_11_12_20_55_00_00.jpg"

/-- The same name with `_1` appended to the stem — where the claim says a
colliding second image is written. -/
def outSample1 : String :=
  "dst/exp/loc-C01/original/exp-loc-C01~fullres-orig/2013/2013_11/2013_11_12/" ++
    "2013_11_12_20/exp-loc-C01~fullres-orig_2013_11_12_20_55_00_00_1.jpg"

def fdSrc : FileData :=
  { content := .orig 1, pexifDate := some tSample, exifreadDate := none,
    writable := true }

def fdOld : FileData :=
  { content := .orig 99, pexifDate := none, exifreadDate := none, writable := true }

/-- World where the computed destination of `src/a.jpg` already exists. -/
def wClob : World :=
  { files := [("src/a.jpg", fdSrc), (outSample, fdOld)],
    dirs := [dirname outSample], dateMaskGlobal := DATE_MASK,
    mkdirFails := [], copyFails := [], openFails := [], unlinkFails := [] }

def wClobAfter : World :=
  { files := [(outSample, fdOld)], dirs := [dirname outSample],
    dateMaskGlobal := "", mkdirFails := [], copyFails := [], openFails := [],
    unlinkFails := [] }

/-- C1 counterexample: with the computed timestream destination already
present, `process_image` does not write the second image under the
`_1`-suffixed name (neither under the stem+`_1` name the claim describes
nor under `_dont_clobber`'s own append-mode output): the image is dropped
— skipped, and (method `move`) its source even deleted — while the
pre-existing destination file survives unchanged. -/
theorem C1_counterexample :
    wClob.fileExists outSample = true ∧
    process_image wClob camMove "src/a.jpg" "jpg" = .ok wClobAfter ∧
    wClobAfter.getFile outSample1 = none ∧
    wClobAfter.getFile (dont_clobber_append wClob outSample) = none ∧
    wClobAfter.getFile outSample = some fdOld ∧
    wClobAfter.getFile "src/a.jpg" = none := by
  refine ⟨by decide, ?_, by decide, by decide, by decide, by decide⟩
  decide

/-- Witness for the amended C1 theorem at the concrete collision world. -/
theorem C1_amended_existing_dest_skips_witness :
    wClob.getFile "src/a.jpg" = some fdSrc ∧
    fdSrc.pexifDate = some tSample ∧
    camMove.timeshift = "" ∧
    make_timestream_name camMove "fullres" "orig" ≠ "" ∧
    wClob.fileExists
      (timestream_out_path camMove (pipelineDate camMove tSample) "src/a.jpg" 0
        "orig") = true ∧
    (∃ w', timestreamise_image wClob camMove "src/a.jpg" 0 "orig" =
        .error (.skip, w') ∧ ∀ p, w'.getFile p = wClob.getFile p) :=
  ⟨by decide, by decide, rfl, by decide, by decide,
    C1_amended_existing_dest_skips wClob camMove "src/a.jpg" 0 "orig" fdSrc tSample
      (by decide) (by decide) rfl (by decide) (by decide)⟩

/-- Camera whose experiment window closes 2013-11-01. -/
def camEarly : Config := { camMove with
  expt_start := stOfCalendar 2013 10 1 0 0 0,
  expt_end := stOfCalendar 2013 11 1 0 0 0 }

def fdNoExif : FileData :=
  { content := .orig 7, pexifDate := none, exifreadDate := none, writable := true }

/-- The date 2013-11-12 20:55:00 as reconstructed from a filename
(weekday recomputed, `tm_isdst = -1` from `timetuple`). -/
def tScan : StructTime := ⟨1384289700, 2, -1⟩

def fdStamped : FileData :=
  { content := .exifStamped (.orig 7) tScan, pexifDate := some tScan,
    exifreadDate := none, writable := true }

/-- World holding one image with no readable EXIF date whose filename
carries the capture time. -/
def wNoExif : World :=
  { files := [("src/b20131112_205500M.jpg", fdNoExif)], dirs := [],
    dateMaskGlobal := DATE_MASK, mkdirFails := [], copyFails := [],
    openFails := [], unlinkFails := [] }

def wNoExifAfter : World := wNoExif.setFile "src/b20131112_205500M.jpg" fdStamped

/-- C2 counterexample: the image's resolved date (2013-11-12, recovered
from the filename) lies after the configured experiment end (2013-11-01),
and `process_image` returns normally — but the source file has been
modified: resolving the date wrote the reconstructed time back into the
file's EXIF metadata, changing its bytes.  The claim's "no file is ...
modified ... including the source file itself" is false. -/
theorem C2_counterexample :
    process_image wNoExif camEarly "src/b20131112_205500M.jpg" "jpg" =
      .ok wNoExifAfter ∧
    stLt camEarly.expt_end tScan = true ∧
    wNoExifAfter.getFile "src/b20131112_205500M.jpg" ≠
      wNoExif.getFile "src/b20131112_205500M.jpg" := by
  refine ⟨?_, by decide, by decide⟩
  decide

/-- Witness for the amended C2 theorem at the same concrete scenario. -/
theorem C2_amended_out_of_range_witness :
    get_file_date wNoExif "src/b20131112_205500M.jpg" camEarly.timeshift
      (camEarly.interval * 60) = .ok (some tScan, wNoExifAfter) ∧
    (stLt tScan camEarly.expt_start = true ∨ stLt camEarly.expt_end tScan = true) ∧
    (process_image wNoExif camEarly "src/b20131112_205500M.jpg" "jpg" =
        .ok wNoExifAfter ∧
      wNoExifAfter.dirs = wNoExif.dirs ∧
      (∀ p, p ≠ "src/b20131112_205500M.jpg" →
        wNoExifAfter.getFile p = wNoExif.getFile p)) :=
  ⟨by decide, by decide,
    C2_amended_out_of_range wNoExif camEarly "src/b20131112_205500M.jpg" "jpg"
      tScan wNoExifAfter (by decide) (by decide)⟩

/-- The archive copy failure scenario: a readable source, archive method,
and a copy oracle that fails exactly on the computed archive path. -/
def wArcFail : World :=
  { files := [("src/a.jpg", fdSrc)], dirs := [], dateMaskGlobal := DATE_MASK,
    mkdirFails := [], copyFails := ["arc/exp/exp-loc-C01~fullres-orig/a.jpg"],
    openFails := [], unlinkFails := [] }

def wArcFailAfter : World :=
  { files := [("src/a.jpg", fdSrc)], dirs := ["arc/exp/exp-loc-C01~fullres-orig"],
    dateMaskGlobal := DATE_MASK, mkdirFails := [],
    copyFails := ["arc/exp/exp-loc-C01~fullres-orig/a.jpg"],
    openFails := [], unlinkFails := [] }

/-- C3 counterexample: a copy failure in the archive branch of
`process_image` is not raised as the Skip signal and is not caught — the
invocation propagates `IOError` (aborting a sequential batch), refuting
the claim that every per-image failure is downgraded to a caught Skip. -/
theorem C3_counterexample :
    process_image wArcFail camArchive "src/a.jpg" "jpg" =
      .error (.ioerr, wArcFailAfter) ∧
    (Exc.ioerr ≠ Exc.skip) := by
  refine ⟨?_, by decide⟩
  decide

/-- Witness for the amended C3 theorem: a `move`-method run returns
normally. -/
theorem C3_amended_copy_move_never_raises_witness :
    wClob.getFile "src/a.jpg" = some fdSrc ∧
    (camMove.method = "copy" ∨ camMove.method = "move") ∧
    camMove.resolutions.length ≤ 1 ∧
    camMove.timeshift = "" ∧
    (∃ w', process_image wClob camMove "src/a.jpg" "jpg" = .ok w') :=
  ⟨by decide, Or.inr rfl, by decide, rfl,
    C3_amended_copy_move_never_raises wClob camMove "src/a.jpg" "jpg" fdSrc
      (by decide) (Or.inr rfl) (by decide) rfl⟩

/-- Archive scenario whose source date must be scraped from the filename
(so date resolution writes EXIF back into the source before archiving). -/
def wNoExifArc : World :=
  { files := [("src/c20131112_205500M.jpg", fdNoExif)], dirs := [],
    dateMaskGlobal := DATE_MASK, mkdirFails := [], copyFails := [],
    openFails := [], unlinkFails := [] }

def arcPathSample : String := "arc/exp/exp-loc-C01~fullres-orig/c20131112_205500M.jpg"

def outSampleC : String :=
  "dst/exp/loc-C01/original/exp-loc-C01~fullres-orig/2013/2013_11/2013_11_12/" ++
    "2013_11_12_20/exp-loc-C01~fullres-orig_2013_11_12_20_55_00_00.jpg"

def wNoExifArcAfter : World :=
  { files := [(arcPathSample, fdStamped), (outSampleC, fdStamped)],
    dirs := [dirname outSampleC, "arc/exp/exp-loc-C01~fullres-orig"],
    dateMaskGlobal := "", mkdirFails := [], copyFails := [], openFails := [],
    unlinkFails := [] }

/-- C4 counterexample: with `method="archive"` and a source whose capture
time must be recovered from the filename, the resolver's best-effort EXIF
write-back modifies the source before the archive copy, so the archived
file's bytes differ from the original source file's bytes — the archived
content carries the EXIF stamp on top of the original content. -/
theorem C4_counterexample :
    process_image wNoExifArc camArchive "src/c20131112_205500M.jpg" "jpg" =
      .ok wNoExifArcAfter ∧
    wNoExifArcAfter.getFile arcPathSample = some fdStamped ∧
    fdNoExif.content = .orig 7 ∧
    fdStamped.content ≠ .orig 7 := by
  refine ⟨?_, by decide, by decide, by decide⟩
  decide

/-- Archive scenario with readable EXIF and no failure oracles. -/
def wArcFail2 : World :=
  { files := [("src/a.jpg", fdSrc)], dirs := [], dateMaskGlobal := DATE_MASK,
    mkdirFails := [], copyFails := [], openFails := [], unlinkFails := [] }

/-- Archive camera that also configures an extra output resolution, so
the run resizes as well as archives — the multi-resolution case the
claim explicitly covers. -/
def camArchive2 : Config :=
  { camArchive with resolutions := [Res.full "original", Res.dims 640 (some 480)] }

/-- Witness for the amended C4 theorem at a concrete archive run with
readable EXIF and a second configured resolution. -/
theorem C4_amended_archive_pristine_witness :
    camArchive2.method = "archive" ∧
    wArcFail2.getFile "src/a.jpg" = some fdSrc ∧
    fdSrc.pexifDate = some tSample ∧
    camArchive2.timeshift = "" ∧
    (¬ (stLt (pipelineDate camArchive2 tSample) camArchive2.expt_start = true ∨
      stLt camArchive2.expt_end (pipelineDate camArchive2 tSample) = true)) ∧
    (stripDot (strLower (splitext "src/a.jpg").2) = "jpg" ∨
      (stripDot (strLower (splitext "src/a.jpg").2) ∈ RAW_FORMATS ∧
        "jpg" = "raw")) ∧
    (¬ containsSubstr (strLower "src/a.jpg") "last_image" = true) ∧
    make_timestream_name camArchive2 "fullres" "orig" ≠ "" ∧
    wArcFail2.fileExists (archive_path camArchive2 "src/a.jpg" "jpg") = false ∧
    (wArcFail2.dirExists (dirname (archive_path camArchive2 "src/a.jpg" "jpg")) =
        true ∨
      ¬ wArcFail2.mkdirFails.contains
        (dirname (archive_path camArchive2 "src/a.jpg" "jpg")) = true) ∧
    (¬ wArcFail2.copyFails.contains (archive_path camArchive2 "src/a.jpg" "jpg") =
      true) ∧
    (¬ wArcFail2.openFails.contains (timestream_out_path camArchive2
      (pipelineDate camArchive2 tSample) "src/a.jpg" 0
      (if strLower "jpg" ∈ RAW_FORMATS then "raw" else "orig")) = true) ∧
    archive_path camArchive2 "src/a.jpg" "jpg" ≠ "src/a.jpg" ∧
    archive_path camArchive2 "src/a.jpg" "jpg" ≠ timestream_out_path camArchive2
      (pipelineDate camArchive2 tSample) "src/a.jpg" 0
      (if strLower "jpg" ∈ RAW_FORMATS then "raw" else "orig") ∧
    (∀ rr ∈ camArchive2.resolutions.drop 1,
      archive_path camArchive2 "src/a.jpg" "jpg" ≠
        resized_path camArchive2 (pipelineDate camArchive2 tSample) rr) ∧
    (∃ w', process_image wArcFail2 camArchive2 "src/a.jpg" "jpg" = .ok w' ∧
      w'.getFile (archive_path camArchive2 "src/a.jpg" "jpg") = some fdSrc) :=
  ⟨rfl, by decide, by decide, rfl, by decide, by decide, by decide, by decide,
    by decide, Or.inr (by decide), by decide, by decide, by decide, by decide,
    by decide,
    C4_amended_archive_pristine wArcFail2 camArchive2 "src/a.jpg" "jpg" fdSrc
      tSample rfl (by decide) (by decide) rfl (by decide) (by decide) (by decide)
      (by decide) (by decide) (Or.inr (by decide)) (by decide) (by decide)
      (by decide) (by decide) (by decide)⟩

/-! ## ConfigModel: validators and row parsing (C8) -/

/-- Python `str.split(c)`. -/
def splitOnAux (c : Char) : Nat → List Char → List Char → List String
  | 0, acc, _ => [String.mk acc.reverse]
  | _ + 1, acc, [] => [String.mk acc.reverse]
  | fuel + 1, acc, x :: xs =>
    if x = c then String.mk acc.reverse :: splitOnAux c fuel [] xs
    else splitOnAux c fuel (x :: acc) xs

def splitOnChar (s : String) (c : Char) : List String :=
  splitOnAux c (s.data.length + 1) [] s.data

/-- Model of `bool_str` (source lines 95-104). -/
def bool_str (x : String) : Option Bool :=
  let s := strLower (strTrim x)
  if s ∈ ["t", "true", "y", "yes", "f", "false", "n", "no"] then
    some (s ∈ ["t", "true", "y", "yes"])
  else (parseIntStr s).map (fun n => n ≠ 0)

/-- Model of `date` / `date_end` (source lines 67-93): the `now`/`current`
keywords resolve to the current local time, otherwise `%Y_%m_%d`. -/
def parseDateField (nowT : StructTime) (x : String) : Option StructTime :=
  if strLower x ∈ ["now", "current"] then some nowT
  else strptimeStr "%Y_%m_%d" x

/-- Model of `int_time_hr_min` (source lines 107-111). -/
def int_time_hr_min (x : String) : Option (Int × Int) :=
  (parseIntStr x).map (fun n => (n / 100, n % 100))

/-- Model of `image_type_str` (source lines 154-163). -/
def image_type_str (x : String) : Option (List String) :=
  let types := splitOnChar (strTrim (strLower x)) '~'
  if types.all (fun t => t ∈ ["raw", "jpg"]) then some types else none

def FULLRES_CONSTANTS : List String := ["original", "orig", "fullres"]

/-- One token of `resolution_str` (source lines 121-135); membership in
the full-resolution keywords is tested on the raw token. -/
def resolution_tok (tok : String) : Option Res :=
  if tok ∈ FULLRES_CONSTANTS then some (.full tok)
  else
    let xy := splitOnChar (strLower (strTrim tok)) 'x'
    match xy with
    | [a, b] =>
      match parseIntStr a, parseIntStr b with
      | some va, some vb => some (.dims va (some vb))
      | _, _ => none
    | _ => (parseIntStr tok).map (fun n => .dims n none)

def resolution_str (x : String) : Option (List Res) :=
  let toks := splitOnChar (strTrim x) '~'
  toks.foldr (fun t acc =>
    match resolution_tok t, acc with
    | some r, some rs => some (r :: rs)
    | _, _ => none) (some [])

/-- Model of `cam_pad_str` (source lines 147-151). -/
def cam_pad_str (x : String) : String :=
  if x.data.length = 1 then "0" ++ x else x

/-- Model of `dataset` (source lines 137-145). -/
def dataset (x : String) : String :=
  if x ≠ "" then (if x.data.length = 1 then "-F0" ++ x else "-F" ++ x) else ""

/-- Model of `large_json` (source lines 170-174). -/
def large_json_val (x : String) : Nat :=
  if x ∈ ["true", "True", "yes", "Yes", "1"] then 1 else 0

/-- Model of `local` path normalisation inside `CameraFields.__init__` (source
lines 257-262): collapse escaped backslashes; with posix `os.path.sep`
the second replace is the identity. -/
def localPath (p : String) : String := strReplace p (String.mk ['\\', '\\']) "/"

/-- A CSV row as `csv.DictReader` yields it: header name to value. -/
def rowFind (row : List (String × String)) (k : String) : Option String :=
  (row.find? (fun e => e.1 == k)).map (fun e => e.2)

/-- The typed attribute set `CameraFields.__init__` produces: required
fields are always set, the rest only when the row carries the column
(accessing an unset attribute later raises `AttributeError`). -/
structure PreConfig where
  use : Bool
  location : String
  expt : String
  cam_num : String
  source : String
  destination : String
  archive_dest : String
  expt_end : StructTime
  expt_start : StructTime
  interval : Int
  image_types : List String
  method : String
  resolutions : Option (List Res)
  sunrise : Option (Int × Int)
  sunset : Option (Int × Int)
  timezone : Option (Int × Int)
  user : Option String
  mode : Option String
  project_owner : Option String
  ts_structure : Option String
  filename_date_mask : Option String
  orientation : Option String
  fn_parse : Option String
  fn_structure : Option String
  datasetID : Option String
  timeshift : Option String
  userfriendlyname : Option String
  large_json : Option Nat
  json_updates : Option String
deriving DecidableEq, Repr

/-- Validate a required field: a missing key and a validator failure both
raise `ValueError` (the source checks the `REQUIRED` set first and then
runs every validator). -/
def reqf (row : List (String × String)) (k : String) (f : String → Option α) :
    Except Exc α :=
  match rowFind row k with
  | none => .error .valueErr
  | some x =>
    match f x with
    | some a => .ok a
    | none => .error .valueErr

/-- Validate an optional field: absent columns are simply not set. -/
def optf (v : Option String) (f : String → Option α) : Except Exc (Option α) :=
  match v with
  | none => .ok none
  | some x =>
    match f x with
    | some a => .ok (some a)
    | none => .error .valueErr

/-- Model of `CameraFields.__init__` (source lines 234-263): translate the known
CSV headers, default `interval`/`method`, require the `REQUIRED` set,
run each present field's validator (any failure is `ValueError`, dropping
the row), localise the path names. -/
def cameraFieldsInit (fs : String → Bool) (nowT : StructTime)
    (row : List (String × String)) : Except Exc PreConfig := do
  let use ← reqf row "USE" bool_str
  let location ← reqf row "LOCATION" (fun x => some (strReplace x "_" "-"))
  let expt ← reqf row "EXPT" (fun x => some (strReplace x "_" "-"))
  let cam_num ← reqf row "CAM_NUM" (fun x => some (cam_pad_str x))
  let source ← reqf row "SOURCE" (fun x => if fs x then some x else none)
  let destination ← reqf row "DESTINATION" (fun x => if fs x then some x else none)
  let archive_dest ← reqf row "ARCHIVE_DEST" (fun x => if fs x then some x else none)
  let expt_end ← reqf row "EXPT_END" (parseDateField nowT)
  let expt_start ← reqf row "EXPT_START" (parseDateField nowT)
  let interval ← (match rowFind row "INTERVAL" with
    | none => .ok 1
    | some x =>
      match parseIntStr x with
      | some n => .ok n
      | none => .error .valueErr)
  let image_types ← reqf row "IMAGE_TYPES" image_type_str
  let method ← (match rowFind row "METHOD" with
    | none => .ok "archive"
    | some x =>
      if x ∈ ["copy", "archive", "move", "resize", "json"] then .ok x
      else .error .valueErr)
  let resolutions ← optf (rowFind row "RESOLUTIONS") resolution_str
  let sunrise ← optf (rowFind row "SUNRISE") int_time_hr_min
  let sunset ← optf (rowFind row "SUNSET") int_time_hr_min
  let timezone ← optf (rowFind row "CAMERA_TIMEZONE") int_time_hr_min
  let user ← optf (rowFind row "USER") (fun x => some (strReplace x "_" "-"))
  let mode ← optf (rowFind row "MODE")
    (fun x => if x ∈ ["batch", "watch"] then some x else none)
  let project_owner ← optf (rowFind row "PROJECT_OWNER")
    (fun x => some (strReplace x "_" "-"))
  let ts_structure ← optf (rowFind row "TS_STRUCTURE") some
  let filename_date_mask ← optf (rowFind row "FILENAME_DATE_MASK") some
  let orientation ← optf (rowFind row "ORIENTATION") some
  let fn_parse ← optf (rowFind row "FN_PARSE") some
  let fn_structure ← optf (rowFind row "FN_STRUCTURE") some
  let datasetID ← optf (rowFind row "DATASETID") (fun x => some (dataset x))
  let timeshift ← optf (rowFind row "TIMESHIFT") some
  let userfriendlyname ← optf (rowFind row "USERFRIENDLYNAME") some
  let large_json ← optf (rowFind row "LARGE_JSON") (fun x => some (large_json_val x))
  let json_updates ← optf (rowFind row "JSON_UPDATES") some
  .ok { use, location, expt, cam_num,
        source := localPath source, destination := localPath destination,
        archive_dest := localPath archive_dest,
        expt_end, expt_start, interval, image_types, method, resolutions,
        sunrise, sunset, timezone, user, mode, project_owner, ts_structure,
        filename_date_mask, orientation, fn_parse, fn_structure, datasetID,
        timeshift, userfriendlyname, large_json, json_updates }

/-! ## PathTemplater: `parse_structures` (C9) -/

/-- The substitution loop of `parse_structures` (source lines 369-371):
`for key, value in camera.__dict__.items(): s = s.replace(key.upper(), str(value))`
— a single sequential pass over a snapshot of the field list, each
replacement applied to the result of the previous one. -/
def substitutePass (fields : List (String × String)) (s : String) : String :=
  fields.foldl (fun acc kv => strReplace acc (strUpper kv.1) kv.2) s

/-- Modelled from the spec: the substitution C9 and section 4.1/9 of the
spec describe — a single fixed pass in which uppercase tokens introduced
into the template by one field's substituted value are never re-expanded
by a later field's substitution, i.e. simultaneous substitution of the
original template's tokens, values emitted verbatim. -/
def substSimAux (fields : List (String × String)) : Nat → List Char → List Char
  | 0, l => l
  | _ + 1, [] => []
  | fuel + 1, c :: cs =>
    match fields.find? (fun kv =>
        !(kv.1 == "") && listStartsWith (strUpper kv.1).data (c :: cs)) with
    | some kv =>
      kv.2.data ++ substSimAux fields fuel ((c :: cs).drop (strUpper kv.1).data.length)
    | none => c :: substSimAux fields fuel cs

/-- Modelled from the spec (see `substSimAux`): no-re-expansion
substitution over a field list. -/
def substituteSimultaneous (fields : List (String × String)) (s : String) : String :=
  String.mk (substSimAux fields (s.data.length + 1) s.data)

/-- Strip one leading path separator (source lines 373-374; indexing an
empty string raises, handled by the caller). -/
def stripOneLeadSep (s : String) : String :=
  match s.data with
  | '/' :: cs => String.mk cs
  | _ => s

/-- The nonempty-`ts_structure` branch of `parse_structures` (source
lines 367-381): sequential token substitution, strip one leading path
separator (`none` models the `IndexError` when the substituted template
is empty), replace underscores with dashes, split off the filename
component and append the canonical resolution/step suffix. -/
def parse_structures_ts (fields : List (String × String)) (ts : String) :
    Option String :=
  let s := substitutePass fields ts
  match s.data with
  | [] => none
  | c :: cs =>
    let s := if c = '/' then String.mk cs else s
    let s := strReplace s "_" "-"
    let df := splitPath s
    some (joinPath df.1 (df.2 ++ "~" ++ TOK_res ++ "-" ++ TOK_step))

/-- Collaborator-level rendering of an attribute value as Python `str()`
would produce it for the substitution loop (exact renderings matter only
when a template deliberately embeds these values). -/
def pyStrTime (t : StructTime) : String := "time.struct_time(" ++ intStr t.epoch ++ ")"

def pyStrBool (b : Bool) : String := if b then "True" else "False"

def pyStrPair (p : Int × Int) : String :=
  "(" ++ intStr p.1 ++ ", " ++ intStr p.2 ++ ")"

def pyStrStrList (l : List String) : String :=
  "[" ++ String.intercalate ", " (l.map (fun x => "\x27" ++ x ++ "\x27")) ++ "]"

def pyStrRes (r : Res) : String :=
  match r with
  | .full s => "\x27" ++ s ++ "\x27"
  | .dims w h =>
    "(" ++ intStr w ++ ", " ++ (match h with | some v => intStr v | none => "None") ++ ")"

def pyStrResList (l : List Res) : String :=
  "[" ++ String.intercalate ", " (l.map pyStrRes) ++ "]"

/-- The camera's `__dict__` as the substitution loop of
`parse_structures` iterates it: one snapshot of (attribute name,
stringified value) pairs, in the schema declaration order (one concrete
realisation of the Python 2 dict enumeration order). -/
def configFields (c : Config) : List (String × String) :=
  [("use", pyStrBool c.use), ("location", c.location), ("expt", c.expt),
   ("cam_num", c.cam_num), ("source", c.source),
   ("destination", c.destination), ("archive_dest", c.archive_dest),
   ("expt_end", pyStrTime c.expt_end), ("expt_start", pyStrTime c.expt_start),
   ("interval", intStr c.interval),
   ("image_types", pyStrStrList c.image_types), ("method", c.method),
   ("resolutions", pyStrResList c.resolutions),
   ("sunrise", pyStrPair c.sunrise), ("sunset", pyStrPair c.sunset),
   ("timezone", pyStrPair c.timezone), ("user", c.user), ("mode", c.mode),
   ("project_owner", c.project_owner), ("ts_structure", c.ts_structure),
   ("filename_date_mask", c.filename_date_mask),
   ("orientation", c.orientation), ("fn_parse", c.fn_parse),
   ("fn_structure", c.fn_structure), ("datasetID", c.datasetID),
   ("timeshift", c.timeshift), ("userfriendlyname", c.userfriendlyname),
   ("large_json", intStr c.large_json), ("json_updates", c.json_updates)]

/-- Read an attribute `CameraFields.__init__` may have left unset;
touching a missing one raises `AttributeError`, which nothing in the
parsing loop catches. -/
def attrGet (v : Option α) : Except Exc α :=
  match v with
  | none => .error .attrErr
  | some a => .ok a

/-- Model of `parse_structures(camera)` (source lines 343-394) on the typed
attribute set: rewrite `userfriendlyname`, then `ts_structure`, then
`fn_structure`, each substitution pass iterating a fresh `__dict__`
snapshot (so it sees the previously rewritten values). -/
def parse_structuresP (pre : PreConfig) : Except Exc Config := do
  let resolutions ← attrGet pre.resolutions
  let sunrise ← attrGet pre.sunrise
  let sunset ← attrGet pre.sunset
  let timezone ← attrGet pre.timezone
  let user ← attrGet pre.user
  let mode ← attrGet pre.mode
  let project_owner ← attrGet pre.project_owner
  let ts_structure ← attrGet pre.ts_structure
  let filename_date_mask ← attrGet pre.filename_date_mask
  let orientation ← attrGet pre.orientation
  let fn_parse ← attrGet pre.fn_parse
  let fn_structure ← attrGet pre.fn_structure
  let datasetID ← attrGet pre.datasetID
  let timeshift ← attrGet pre.timeshift
  let userfriendlyname ← attrGet pre.userfriendlyname
  let large_json ← attrGet pre.large_json
  let json_updates ← attrGet pre.json_updates
  let c0 : Config :=
    { use := pre.use, location := pre.location, expt := pre.expt,
      cam_num := pre.cam_num, source := pre.source,
      destination := pre.destination, archive_dest := pre.archive_dest,
      expt_end := pre.expt_end, expt_start := pre.expt_start,
      interval := pre.interval, image_types := pre.image_types,
      method := pre.method, resolutions, sunrise, sunset, timezone, user,
      mode, project_owner, ts_structure, filename_date_mask, orientation,
      fn_parse, fn_structure, datasetID, timeshift, userfriendlyname,
      large_json, json_updates }
  let c1 : Config :=
    if c0.userfriendlyname = "" then
      { c0 with userfriendlyname :=
          c0.expt ++ "-" ++ c0.location ++ "-C" ++ c0.cam_num ++ c0.datasetID }
    else
      { c0 with userfriendlyname :=
          strReplace (substitutePass (configFields c0) c0.userfriendlyname) "/" "" }
  let tsDefault : String :=
    strReplace (joinPath (joinPath (joinPath c1.expt
        (c1.location ++ "-C" ++ c1.cam_num ++ c1.datasetID)) TOK_folder)
      (c1.expt ++ "-" ++ c1.location ++ "-C" ++ c1.cam_num ++ c1.datasetID ++
        "~" ++ TOK_res ++ "-" ++ TOK_step)) "_" "-"
  let c2 ← (if c1.ts_structure = "" then
      (.ok { c1 with ts_structure := tsDefault } : Except Exc Config)
    else
      match parse_structures_ts (configFields c1) c1.ts_structure with
      | none => (.error .othererr : Except Exc Config)
      | some ts => .ok { c1 with ts_structure := ts })
  let c3 : Config :=
    if c2.fn_structure = "" then
      { c2 with fn_structure :=
          strReplace c2.expt "_" "-" ++ "-" ++ strReplace c2.location "_" "-" ++
            "-C" ++ strReplace c2.cam_num "_" "-" ++ c2.datasetID ++
            "~" ++ TOK_res ++ "-" ++ TOK_step }
    else
      { c2 with fn_structure :=
          strReplace (strReplace (substitutePass (configFields c2) c2.fn_structure)
            "/" "") "_" "-" ++ "~" ++ TOK_res ++ "-" ++ TOK_step }
  .ok c3

/-- Model of `parse_camera_config_csv(filename)` (source lines 721-735): one
`CameraFields` per row, `SkipImage`/`ValueError` dropping the row and
continuing; configs of used cameras are yielded through
`parse_structures`, whose own non-`ValueError` exceptions abort the
generator. -/
def parse_camera_config_csv (fs : String → Bool) (nowT : StructTime) :
    List (List (String × String)) → Except Exc (List Config)
  | [] => .ok []
  | row :: rest =>
    match cameraFieldsInit fs nowT row with
    | .error .valueErr => parse_camera_config_csv fs nowT rest
    | .error .skip => parse_camera_config_csv fs nowT rest
    | .error e => .error e
    | .ok pre =>
      if pre.use then
        match parse_structuresP pre with
        | .error .valueErr => parse_camera_config_csv fs nowT rest
        | .error .skip => parse_camera_config_csv fs nowT rest
        | .error e => .error e
        | .ok cfg =>
          match parse_camera_config_csv fs nowT rest with
          | .error e => .error e
          | .ok cfgs => .ok (cfg :: cfgs)
      else parse_camera_config_csv fs nowT rest

/-- C8: a configuration row with a missing required field or any
field-validator failure yields a validation error for that row only: the
row is dropped and parsing continues, producing exactly the configs of
the remaining rows — an invalid row never aborts parsing of the rows
after it. -/
theorem C8_invalid_row_dropped (fs : String → Bool) (nowT : StructTime)
    (l1 : List (List (String × String))) (bad : List (String × String))
    (l2 : List (List (String × String)))
    (hbad : cameraFieldsInit fs nowT bad = .error .valueErr) :
    parse_camera_config_csv fs nowT (l1 ++ bad :: l2) =
      parse_camera_config_csv fs nowT (l1 ++ l2) := by
  induction l1 with
  | nil =>
    simp only [List.nil_append]
    rw [parse_camera_config_csv, hbad]
  | cons r rs ih =>
    simp only [List.cons_append]
    rw [parse_camera_config_csv, parse_camera_config_csv]
    rw [ih]

/-- A complete, valid configuration row (all columns of the schema). -/
def goodRow : List (String × String) :=
  [("USE", "1"), ("LOCATION", "loc"), ("EXPT", "exp"), ("CAM_NUM", "1"),
   ("SOURCE", "src"), ("DESTINATION", "dst"), ("ARCHIVE_DEST", "arc"),
   ("EXPT_END", "2013_12_31"), ("EXPT_START", "2013_11_01"),
   ("INTERVAL", "5"), ("IMAGE_TYPES", "jpg"), ("METHOD", "move"),
   ("RESOLUTIONS", "original"), ("SUNRISE", "500"), ("SUNSET", "2200"),
   ("CAMERA_TIMEZONE", "1100"), ("USER", "u"), ("MODE", "batch"),
   ("PROJECT_OWNER", ""), ("TS_STRUCTURE", ""), ("FILENAME_DATE_MASK", ""),
   ("ORIENTATION", ""), ("FN_PARSE", ""), ("FN_STRUCTURE", ""),
   ("DATASETID", "1"), ("TIMESHIFT", ""), ("USERFRIENDLYNAME", ""),
   ("LARGE_JSON", ""), ("JSON_UPDATES", "")]

/-- A row lacking most of the required columns. -/
def badRow : List (String × String) := [("USE", "1"), ("LOCATION", "loc")]

/-- Witness for C8: a bad row among good rows is dropped without
affecting the configs parsed from the rows after it. -/
theorem C8_invalid_row_dropped_witness :
    cameraFieldsInit (fun _ => true) tSample badRow = .error .valueErr ∧
    parse_camera_config_csv (fun _ => true) tSample
        ([goodRow] ++ badRow :: [goodRow]) =
      parse_camera_config_csv (fun _ => true) tSample ([goodRow] ++ [goodRow]) :=
  ⟨by decide, C8_invalid_row_dropped (fun _ => true) tSample [goodRow] badRow
    [goodRow] (by decide)⟩

/-- C9 counterexample: the code's sequential substitution pass re-expands
tokens introduced by an earlier field's value — with the field snapshot
`[expt := "LOCATION", location := "foo"]` and template `"EXPT"`, the
substituted value `"LOCATION"` is itself replaced by the later field, in
contradiction with the claimed no-re-expansion substitution (modelled
from the spec as `substituteSimultaneous`). -/
theorem C9_counterexample :
    substitutePass [("expt", "LOCATION"), ("location", "foo")] "EXPT" = "foo" ∧
    substituteSimultaneous [("expt", "LOCATION"), ("location", "foo")] "EXPT" =
      "LOCATION" ∧
    substitutePass [("expt", "LOCATION"), ("location", "foo")] "EXPT" ≠
      substituteSimultaneous [("expt", "LOCATION"), ("location", "foo")] "EXPT" := by
  refine ⟨by decide, by decide, by decide⟩

/-- C9 (amended): `parse_structures` substitutes with a single sequential
pass over the snapshotted field list, each replacement applied to the
output of the previous one — so the pass over `f1 ++ f2` is the `f2` pass
run on the result of the `f1` pass, and an uppercase token introduced by
an earlier field's substituted value IS re-expanded by a later field's
substitution (concrete instance); after substitution it strips one
leading path separator if present, replaces underscores with dashes, and
appends the canonical resolution/step suffix to the filename component
(an empty substituted template makes the strip raise). -/
theorem C9_amended_sequential_substitution :
    (∀ (f1 f2 : List (String × String)) (s : String),
      substitutePass (f1 ++ f2) s = substitutePass f2 (substitutePass f1 s)) ∧
    (substitutePass [("expt", "LOCATION"), ("location", "foo")] "EXPT" = "foo") ∧
    (∀ (fields : List (String × String)) (ts : String),
      substitutePass fields ts ≠ "" →
      parse_structures_ts fields ts = some (joinPath
        (splitPath (strReplace (stripOneLeadSep (substitutePass fields ts))
          "_" "-")).1
        ((splitPath (strReplace (stripOneLeadSep (substitutePass fields ts))
          "_" "-")).2 ++ "~" ++ TOK_res ++ "-" ++ TOK_step))) := by
  refine ⟨?_, by decide, ?_⟩
  · intro f1 f2 s
    unfold substitutePass
    exact List.foldl_append _ _ f1 f2
  · intro fields ts h
    unfold parse_structures_ts stripOneLeadSep
    generalize hs : substitutePass fields ts = s0 at h ⊢
    obtain ⟨l⟩ := s0
    cases l with
    | nil => exact absurd rfl h
    | cons c cs =>
      by_cases hc : c = '/'
      · subst hc
        rfl
      · simp only []
        rw [if_neg hc]
        have hm : (match (String.mk (c :: cs)).data with
            | '/' :: cs => String.mk cs
            | _ => String.mk (c :: cs)) = String.mk (c :: cs) := by
          cases hcc : c
          simp_all
        rw [hm]

/-- Witness for the amended C9 theorem at a concrete field list and
template. -/
theorem C9_amended_sequential_substitution_witness :
    (substitutePass ([("expt", "LOCATION")] ++ [("location", "foo")]) "EXPT" =
      substitutePass [("location", "foo")]
        (substitutePass [("expt", "LOCATION")] "EXPT")) ∧
    (substitutePass [("expt", "LOCATION"), ("location", "foo")] "/a_b" ≠ "") ∧
    (parse_structures_ts [("expt", "LOCATION"), ("location", "foo")] "/a_b" =
      some (joinPath
        (splitPath (strReplace (stripOneLeadSep
          (substitutePass [("expt", "LOCATION"), ("location", "foo")] "/a_b"))
          "_" "-")).1
        ((splitPath (strReplace (stripOneLeadSep
          (substitutePass [("expt", "LOCATION"), ("location", "foo")] "/a_b"))
          "_" "-")).2 ++ "~" ++ TOK_res ++ "-" ++ TOK_step))) :=
  ⟨C9_amended_sequential_substitution.1 [("expt", "LOCATION")]
      [("location", "foo")] "EXPT",
    by decide,
    C9_amended_sequential_substitution.2.2 [("expt", "LOCATION"), ("location", "foo")]
      "/a_b" (by decide)⟩
